import Mathlib

/-!
The go-token-handler: session lifecycle and session storage.

A shallow embedding of the `sessions` and `database` packages of
`gandalfmagic/go-token-handler`, with theorems about key-pair validation, the
persistent session store (SQLite and PostgreSQL engines), the session handle
and the authentication middleware.

Conventions of the embedding
* A Go `error` is a value of `GoError`; `nil` is `none` / `Except.ok`.
  `switch err { case X: }` compares with `==`, which on error values is
  identity: it is pattern matching on the constructor, and a value built by
  `fmt.Errorf("%w ...")` is never `==` to the sentinel it wraps.
* Go strings whose byte length matters (the cookie keys) are byte lists.
* Stateful code passes its state explicitly.
-/

deriving instance DecidableEq for Except

namespace TokenHandler

/-! ## Errors -/

/-- Go error values that occur in the embedded packages.  The sentinels keep
their source names; `wrap` is the value built by `fmt.Errorf` with a `%w` verb
(`msg` is the formatted text); `foreign` is any error value made by a library
(driver, cookie codec, cipher, OIDC client). -/
inductive GoError where
  | ErrWrongAuthSecretSize
  | ErrWrongEncSecretSize
  | ErrNilValue
  | ErrCannotCreateCookie
  | ErrCannotGetCookie
  | ErrSessionNotFound
  | ErrCannotRetrieveSessionData
  | ErrSessionInvalid
  | ErrSessionsMismatch
  | sqlErrNoRows
  | pgxErrNoRows
  | foreign (msg : String)
  | wrap (inner : GoError) (msg : String)
  deriving DecidableEq, Repr

namespace GoError

/-- The `Error()` text of an error value. -/
def Error : GoError → String
  | ErrWrongAuthSecretSize => "the session authentication key should have a size of 32 or 64 bytes"
  | ErrWrongEncSecretSize => "the session encryption key should have a size of 16, 24 or 32 bytes"
  | ErrNilValue => "you cannot pass a nil value"
  | ErrCannotCreateCookie => "cannot create a new cookie"
  | ErrCannotGetCookie => "cannot get the cookie"
  | ErrSessionNotFound => "cannot retrieve session from storage"
  | ErrCannotRetrieveSessionData => "cannot retrieve session data"
  | ErrSessionInvalid => "cannot retrieve session id from memory"
  | ErrSessionsMismatch => "the old and new session do not match"
  | sqlErrNoRows => "sql: no rows in result set"
  | pgxErrNoRows => "no rows in result set"
  | foreign msg => msg
  | wrap _ msg => msg

/-- The function `errors.Is`: the error is the target, or wraps it. -/
def Is : GoError → GoError → Bool
  | wrap inner msg, target =>
    decide (wrap inner msg = target) || Is inner target
  | e, target => decide (e = target)

end GoError

/-! ## Key pairs (`sessions/configuration.go`) -/

/-- A Go string seen as its bytes: `len` is `List.length`, `[]byte(s)` is the
list itself and `s == ""` is `s = []`. -/
abbrev Bytes := List (Fin 256)

/-- The struct `KeyPair`. -/
structure KeyPair where
  Authentication : Bytes
  Encryption : Bytes
  deriving DecidableEq, Repr

/-- The type `parseType` with its two constants. -/
inductive parseType where
  | parseCurrent
  | parseOld
  deriving DecidableEq, Repr

/-- The string value of a `parseType` constant. -/
def parseType.text : parseType → String
  | parseCurrent => "current"
  | parseOld => "old"

/-- The key and cookie fields of the struct `Configuration`; `SessionImpl` is
kept apart (see `NewManager`). -/
structure Configuration where
  CookieName : String
  CookieDomain : String
  NewKeyPair : KeyPair
  OldKeyPair : KeyPair
  LoginTimeout : Int
  SessionTimeout : Int
  deriving DecidableEq, Repr

/-- The method `Configuration.appendSlice`. -/
def Configuration.appendSlice (mc : Configuration) (slice : List Bytes) (pt : parseType) :
    Except GoError (List Bytes) :=
  let kp : KeyPair :=
    match pt with
    | .parseCurrent => mc.NewKeyPair
    | .parseOld => mc.OldKeyPair
  let authKey : Bytes := kp.Authentication
  let kLen := authKey.length
  if kLen ≠ 32 ∧ kLen ≠ 64 then
    .error (.wrap .ErrWrongAuthSecretSize
      (GoError.ErrWrongAuthSecretSize.Error ++ ": " ++ pt.text ++ " authentication key"))
  else
    let slice := slice ++ [authKey]
    let encKey : Bytes := if kp.Encryption ≠ [] then kp.Encryption else []
    let kLen := encKey.length
    if kLen ≠ 0 ∧ kLen ≠ 16 ∧ kLen ≠ 32 ∧ kLen ≠ 64 then
      .error (.wrap .ErrWrongEncSecretSize
        (GoError.ErrWrongEncSecretSize.Error ++ ": " ++ pt.text ++ " encryption key"))
    else
      .ok (slice ++ [encKey])

/-- The method `Configuration.keyPairsAsSlice`. -/
def Configuration.keyPairsAsSlice (mc : Configuration) : Except GoError (List Bytes) :=
  if mc.NewKeyPair.Authentication = [] then
    .ok []
  else
    match mc.appendSlice [] .parseCurrent with
    | .error err => .error err
    | .ok slice =>
      if mc.OldKeyPair.Authentication = [] then
        .ok slice
      else
        mc.appendSlice [] .parseOld

/-- A key of `n` bytes, each equal to `b`. -/
def keyOf (n : Nat) (b : Fin 256) : Bytes := List.replicate n b

/-- A configuration with the given key pairs and empty cookie settings. -/
def cfgOf (cur old : KeyPair) : Configuration :=
  { CookieName := "", CookieDomain := "", NewKeyPair := cur, OldKeyPair := old,
    LoginTimeout := 0, SessionTimeout := 0 }

/-! ## Session records (`database/database.go`) -/

/-- A `time.Time` as an instant: whole seconds since the Unix epoch and the
nanoseconds within the second (location and monotonic reading are left out). -/
structure Time where
  sec : Int
  nsec : Fin 1000000000
  deriving DecidableEq, Repr

namespace Time

/-- The method `Time.Unix`: the whole seconds since the epoch. -/
def Unix (t : Time) : Int := t.sec

/-- The call `time.Unix(sec, 0)`. -/
def ofUnix (sec : Int) : Time := ⟨sec, 0⟩

/-- The method `Time.After`. -/
def After (t u : Time) : Bool :=
  decide (u.sec < t.sec) || (decide (t.sec = u.sec) && decide (u.nsec < t.nsec))

/-- The zero value `time.Time{}` (1 January of year 1, UTC). -/
def zero : Time := ⟨-62135596800, 0⟩

end Time

/-- The struct `SessionData`. -/
structure SessionData where
  Subject : String
  AccessToken : String
  RefreshToken : String
  IDToken : String
  ExpiresAt : Time
  deriving DecidableEq, Repr

/-- The zero value `SessionData{}`. -/
def SessionData.zero : SessionData := ⟨"", "", "", "", Time.zero⟩

/-- The method `SessionData.IsExpired`; `now` is the reading of `time.Now()`. -/
def SessionData.IsExpired (d : SessionData) (now : Time) : Bool :=
  now.After d.ExpiresAt

/-- The interface `encryption.HexCipher` (an external library): its two
methods as functions on the byte content, `[]byte(s)` and `string(b)` being
the identity on bytes.  A nil cipher is `none : Option HexCipher`. -/
structure HexCipher where
  EncryptToHexString : String → Except GoError String
  DecryptFromHexString : String → Except GoError String

/-- The function `encryptArgs`. -/
def encryptArgs (cipher : Option HexCipher) (s : SessionData) : Except GoError SessionData :=
  match cipher with
  | none => .ok s
  | some cipher =>
    match cipher.EncryptToHexString s.AccessToken with
    | .error err => .error (.wrap err ("cannot encrypt access token: " ++ err.Error))
    | .ok encAccessToken =>
      match cipher.EncryptToHexString s.RefreshToken with
      | .error err => .error (.wrap err ("cannot encrypt refresh token: " ++ err.Error))
      | .ok encRefreshToken =>
        match cipher.EncryptToHexString s.IDToken with
        | .error err => .error (.wrap err ("cannot encrypt id token: " ++ err.Error))
        | .ok encIDToken =>
          .ok { Subject := s.Subject, AccessToken := encAccessToken,
                RefreshToken := encRefreshToken, IDToken := encIDToken,
                ExpiresAt := s.ExpiresAt }

/-- The function `decryptArgs`. -/
def decryptArgs (cipher : Option HexCipher) (s : SessionData) : Except GoError SessionData :=
  match cipher with
  | none => .ok s
  | some cipher =>
    match cipher.DecryptFromHexString s.AccessToken with
    | .error err => .error (.wrap err ("cannot decrypt access token: " ++ err.Error))
    | .ok decAccessToken =>
      match cipher.DecryptFromHexString s.RefreshToken with
      | .error err => .error (.wrap err ("cannot decrypt refresh token: " ++ err.Error))
      | .ok decRefreshToken =>
        match cipher.DecryptFromHexString s.IDToken with
        | .error err => .error (.wrap err ("cannot decrypt id token: " ++ err.Error))
        | .ok decIDToken =>
          .ok { Subject := s.Subject, AccessToken := decAccessToken,
                RefreshToken := decRefreshToken, IDToken := decIDToken,
                ExpiresAt := s.ExpiresAt }

/-! ## The `sessions` table and its statements (`database/sqlite.go`, `database/postgresql.go`)

The connection is taken to be healthy: a statement fails only when the schema
rejects it. -/

/-- A row of the table `sessions`. -/
structure Row where
  session_id : String
  subject : String
  access_token : String
  refresh_token : String
  id_token : String
  expires_at : Int
  deriving DecidableEq, Repr

/-- The content of the table `sessions`, in insertion order. -/
abbrev Table := List Row

/-- The two engines that implement the store. -/
inductive Engine where
  | sqlite
  | postgresql
  deriving DecidableEq, Repr

/-- Whether the engine's `integer` type takes the value: SQLite's `INTEGER`
is 64 bit and takes every `int64`; PostgreSQL's `integer` is 32 bit. -/
def Engine.takesInteger (e : Engine) (n : Int) : Bool :=
  match e with
  | .sqlite => true
  | .postgresql => decide (-2147483648 ≤ n) && decide (n ≤ 2147483647)

/-- The four `CHECK(column != '')` constraints, which both schemas declare
(`querySQLiteCreate`, `queryPostgresqlCreate`). -/
def Row.checks (r : Row) : Bool :=
  r.subject != "" && r.access_token != "" && r.refresh_token != "" && r.id_token != ""

/-- The column types of the schema: SQLite's `TEXT` and `INTEGER` (64 bit) take
every value the Go code binds; PostgreSQL declares `session_id varchar(36)` and
`expires_at integer` (32 bit). -/
def Row.fits (e : Engine) (r : Row) : Bool :=
  match e with
  | .sqlite => true
  | .postgresql =>
    decide (r.session_id.length ≤ 36) &&
      decide (-2147483648 ≤ r.expires_at) && decide (r.expires_at ≤ 2147483647)

/-- The statement `INSERT INTO sessions (...) VALUES (...)`: rejected by a
`CHECK`, a column type or the primary key, else the row is added. -/
def execInsert (e : Engine) (t : Table) (r : Row) : Except GoError Table :=
  if !r.fits e then .error (.foreign "value out of range for the column type")
  else if !r.checks then .error (.foreign "CHECK constraint failed")
  else if t.any (fun x => x.session_id == r.session_id) then
    .error (.foreign "UNIQUE constraint failed: sessions.session_id")
  else .ok (t ++ [r])

/-- The error that `QueryRow(...).Scan(...)` returns when the query selects no
row: `sql.ErrNoRows` from `database/sql` (SQLite engine), `pgx.ErrNoRows` from
`github.com/jackc/pgx/v5` (PostgreSQL engine). -/
def Engine.ErrNoRows : Engine → GoError
  | .sqlite => .sqlErrNoRows
  | .postgresql => .pgxErrNoRows

/-- The statement `SELECT ... FROM sessions WHERE session_id = ?` scanned by
`QueryRow(...).Scan(...)`. -/
def queryRowSelect (e : Engine) (t : Table) (id : String) : Except GoError Row :=
  match t.find? (fun x => x.session_id == id) with
  | some r => .ok r
  | none => .error e.ErrNoRows

/-- The statement `UPDATE sessions SET ... WHERE session_id = ?`: every row
with that identifier takes the new values, which the schema must accept when
there is such a row. -/
def execUpdate (e : Engine) (t : Table) (r : Row) : Except GoError Table :=
  if t.any (fun x => x.session_id == r.session_id) then
    if !r.fits e then .error (.foreign "value out of range for the column type")
    else if !r.checks then .error (.foreign "CHECK constraint failed")
    else .ok (t.map (fun x => if x.session_id == r.session_id then r else x))
  else .ok t

/-- The statement `DELETE FROM sessions WHERE session_id = ?`. -/
def execDelete (t : Table) (id : String) : Table :=
  t.filter (fun x => !(x.session_id == id))

/-- The statement `DELETE FROM sessions WHERE expires_at < ?`. -/
def execPurge (t : Table) (now : Int) : Table :=
  t.filter (fun x => !decide (x.expires_at < now))

/-- The structs `sqlite` and `postgresql`: a connection to the table and the
cipher.  Their methods run the same code, on the query constants and the
driver of their engine. -/
structure Store where
  engine : Engine
  cipher : Option HexCipher
  table : Table

namespace Store

/-- The row bound by `Add` and `Update` for identifier `id` and the encrypted
record `enc`: the columns are `enc`'s fields and `enc.ExpiresAt.Unix()`. -/
def rowOf (id : String) (enc : SessionData) : Row :=
  { session_id := id, subject := enc.Subject, access_token := enc.AccessToken,
    refresh_token := enc.RefreshToken, id_token := enc.IDToken,
    expires_at := enc.ExpiresAt.Unix }

/-- The methods `sqlite.Add` and `postgresql.Add`; `id` is the value of
`uuid.New().String()`. -/
def Add (db : Store) (id : String) (s : SessionData) : Except GoError String × Store :=
  match encryptArgs db.cipher s with
  | .error err => (.error err, db)
  | .ok enc =>
    match execInsert db.engine db.table (rowOf id enc) with
    | .error err => (.error err, db)
    | .ok t => (.ok id, { db with table := t })

/-- The methods `sqlite.Delete` and `postgresql.Delete`. -/
def Delete (db : Store) (id : String) : Option GoError × Store :=
  (none, { db with table := execDelete db.table id })

/-- The methods `sqlite.Get` and `postgresql.Get`. -/
def Get (db : Store) (id : String) : Except GoError SessionData :=
  match queryRowSelect db.engine db.table id with
  | .error err => .error err
  | .ok r =>
    let s : SessionData :=
      { Subject := r.subject, AccessToken := r.access_token,
        RefreshToken := r.refresh_token, IDToken := r.id_token,
        ExpiresAt := Time.ofUnix r.expires_at }
    decryptArgs db.cipher s

/-- The methods `sqlite.Update` and `postgresql.Update`. -/
def Update (db : Store) (id : String) (s : SessionData) : Option GoError × Store :=
  match db.Get id with
  | .error err => (some err, db)
  | .ok oldSession =>
    if s.Subject ≠ oldSession.Subject then (some .ErrSessionsMismatch, db)
    else
      match encryptArgs db.cipher s with
      | .error err => (some err, db)
      | .ok enc =>
        match execUpdate db.engine db.table (rowOf id enc) with
        | .error err => (some err, db)
        | .ok t => (none, { db with table := t })

/-- The methods `sqlite.Purge` and `postgresql.Purge`; `clock` is the reading
of `time.Now()`, of which the code keeps `now := time.Now().Unix()`.  The
statement compares `now` with the `expires_at` column, so the PostgreSQL
driver binds it as a 32-bit `integer` and fails when it does not fit. -/
def Purge (db : Store) (clock : Time) : Option GoError × Store :=
  let now := clock.Unix
  if !db.engine.takesInteger now then
    (some (.foreign "value out of range for the column type"), db)
  else
    (none, { db with table := execPurge db.table now })

end Store

/-! ## The store interface (`database.SessionImpl`) -/

/-- The interface `SessionImpl`: the methods of an implementation as functions
on its state `σ`.  `Get` gives the record or the error (both engines return
`SessionData{}` with an error). -/
structure SessionImpl (σ : Type) where
  CloseConnection : σ → Option GoError × σ
  Add : σ → SessionData → Except GoError String × σ
  Delete : σ → String → Option GoError × σ
  Get : σ → String → Except GoError SessionData × σ
  Update : σ → String → SessionData → Option GoError × σ
  Purge : σ → Option GoError × σ

/-- A call made through the interface (kept as a trace by the session handle). -/
inductive StoreCall where
  | Add (s : SessionData)
  | Delete (id : String)
  | Get (id : String)
  | Update (id : String) (s : SessionData)
  | Purge
  deriving DecidableEq, Repr

/-- An engine behind the interface, with what its methods read from the
environment: the successive values of `uuid.New().String()` and the clock. -/
structure Backend where
  db : Store
  uuid : Nat → String
  minted : Nat
  clock : Time

/-- The implementation of `SessionImpl` by the engine of a `Backend`. -/
def Backend.impl : SessionImpl Backend where
  CloseConnection := fun b => (none, b)
  Add := fun b s =>
    let res := b.db.Add (b.uuid b.minted) s
    (res.1, { b with db := res.2, minted := b.minted + 1 })
  Delete := fun b id =>
    let res := b.db.Delete id
    (res.1, { b with db := res.2 })
  Get := fun b id => (b.db.Get id, b)
  Update := fun b id s =>
    let res := b.db.Update id s
    (res.1, { b with db := res.2 })
  Purge := fun b =>
    let res := b.db.Purge b.clock
    (res.1, { b with db := res.2 })

/-! ## OIDC collaborator (`oidc/oidc.go`) -/

/-- The fields of `oauth2.Token` that the code reads; `id_token` is
`token.Extra("id_token").(string)`, `none` when the assertion fails. -/
structure Token where
  AccessToken : String
  RefreshToken : String
  Expiry : Time
  id_token : Option String

/-- The struct `IDToken`: the subject of the verified token and the raw token. -/
structure IDToken where
  Subject : String
  RawToken : String
  deriving DecidableEq, Repr

/-- The struct `oidc.Config` with the outcomes of the external calls it makes:
`oidc.NewProvider`, `verifier.Verify` (giving the subject), the answer of the
token endpoint to a refresh request with the given (non-empty) refresh token
(`TokenSource`), and the authorization-code exchange. -/
structure OidcConfig where
  NewProvider : Option GoError
  Verify : String → Except GoError String
  TokenSource : String → Except GoError Token
  Exchange : String → Except GoError Token

/-- The call `config.TokenSource(ctx, &oauth2.Token{RefreshToken: rt}).Token()`
of the embedded `oauth2.Config`: the token handed over has no access token, so
the source refreshes it; the refresher of `golang.org/x/oauth2` fails on an
empty refresh token before any request, and otherwise returns what the token
endpoint answers. -/
def OidcConfig.Refresh (c : OidcConfig) (refreshToken : String) : Except GoError Token :=
  if refreshToken = "" then
    .error (.foreign "oauth2: token expired and refresh token is not set")
  else c.TokenSource refreshToken

/-- The method `Config.GetIdToken`. -/
def OidcConfig.GetIdToken (c : OidcConfig) (token : Token) : Except GoError IDToken :=
  match token.id_token with
  | none => .error (.foreign "no valid id_token in the response")
  | some rawIDToken =>
    match c.NewProvider with
    | some _ => .error (.foreign "failed to verify the id-token (1001)")
    | none =>
      match c.Verify rawIDToken with
      | .error _ => .error (.foreign "failed to verify the id-token (1002)")
      | .ok subject => .ok { Subject := subject, RawToken := rawIDToken }

/-! ## The conversion `int(d.Seconds())` of a `time.Duration`

The method `Duration.Seconds` returns `float64(sec) + float64(nsec)/1e9` for
`sec := d / Second` and `nsec := d % Second`; the code converts it back with
`int(...)`.  The float64 values are kept as pairs `(m, e)` standing for
`m * 2 ^ e`, and rounding is to nearest, ties to even. -/

/-- The fraction `num / den` divided by `2 ^ e`. -/
def scaleBy (num den : Nat) (e : Int) : Nat × Nat :=
  if 0 ≤ e then (num, den * 2 ^ e.toNat) else (num * 2 ^ (-e).toNat, den)

/-- The multiple of `2 ^ e` nearest to `num / den`, a tie going to the even
multiple. -/
def roundAt (num den : Nat) (e : Int) : Nat × Int :=
  let s := scaleBy num den e
  let m := s.1 / s.2
  let r := s.1 % s.2
  (if s.2 < 2 * r ∨ (2 * r = s.2 ∧ m % 2 = 1) then m + 1 else m, e)

/-- The binary logarithm of `n`, rounded down, in at most `fuel` halvings. -/
def log2Fuel : Nat → Nat → Nat
  | 0, _ => 0
  | fuel + 1, n => if n < 2 then 0 else log2Fuel fuel (n / 2) + 1

/-- The binary logarithm of `n`, rounded down (`n` halvings always suffice). -/
def floorLog2 (n : Nat) : Nat := log2Fuel n n

/-- The exponent of the float64 nearest to a positive `num / den`: the `e`
with `2 ^ 52 ≤ num / (den * 2 ^ e) < 2 ^ 53` (53 bits of mantissa). -/
def float64Exponent (num den : Nat) : Int :=
  let e0 : Int := (floorLog2 num : Int) - (floorLog2 den : Int) - 52
  let s := scaleBy num den e0
  if s.1 / s.2 < 2 ^ 52 then e0 - 1 else e0

/-- The float64 nearest to `num / den` (in the normal range). -/
def roundFloat64 (num den : Nat) : Nat × Int :=
  if num = 0 then (0, 0) else roundAt num den (float64Exponent num den)

/-- The conversion `int(x)` of a float64 `x = m * 2 ^ e`: its integer part. -/
def truncFloat64 (v : Nat × Int) : Nat :=
  if 0 ≤ v.2 then v.1 * 2 ^ v.2.toNat else v.1 / 2 ^ (-v.2).toNat

/-- The value of `int(d.Seconds())` for a duration of `d` nanoseconds (an
`int64`, so that its whole seconds are exact in float64): the quotient
`float64(nsec)/1e9` is rounded, the sum with the seconds is rounded, and the
conversion takes the integer part; a negative duration mirrors a positive
one. -/
def durationSeconds (d : Int) : Int :=
  let sec := d.natAbs / 1000000000
  let nsec := d.natAbs % 1000000000
  let f := roundFloat64 nsec 1000000000
  let sum : Nat × Nat :=
    if 0 ≤ f.2 then (sec + f.1 * 2 ^ f.2.toNat, 1)
    else (sec * 2 ^ (-f.2).toNat + f.1, 2 ^ (-f.2).toNat)
  let t := truncFloat64 (roundFloat64 sum.1 sum.2)
  if d < 0 then -(t : Int) else t

/-! ## Session handle (`sessions/session.go`) -/

/-- Modelled from the spec: the keys `sessionStateName` and `sessionIdName` of
the cookie's value map are constants declared outside the listed sources; the
spec (cookie wire format) has them as two different keys, `stateKey` and
`sessionKey`. -/
inductive ValueKey where
  | sessionStateName
  | sessionIdName
  deriving DecidableEq, Repr

/-- A value of the map (`interface{}`): a string, or a value of another type. -/
inductive Value where
  | string (s : String)
  | other
  deriving DecidableEq, Repr

/-- The type of the map `Values` of a cookie session, on the two keys the code
uses. -/
abbrev ValueMap := ValueKey → Option Value

/-- The type assertion `values[key].(string)`. -/
def ValueMap.string? (values : ValueMap) (key : ValueKey) : Option String :=
  match values key with
  | some (.string s) => some s
  | _ => none

/-- The cookie session of `gorilla/sessions`: its value map, `Options.MaxAge`,
and the outcome of `Save(r, w)` (the codec's error, if any) for the values and
age being written. -/
structure CookieSession where
  Values : ValueMap
  MaxAge : Int
  encode : ValueMap → Int → Option GoError

/-- The method `sessions.Session.Save` of the cookie session. -/
def CookieSession.Save (c : CookieSession) : Option GoError :=
  c.encode c.Values c.MaxAge

/-- What the handles of a process share: the state `db` of the store behind
the interface value, and the trace `calls` of the calls made through it. -/
structure World (σ : Type) where
  db : σ
  calls : List StoreCall

/-- The struct `Session`. -/
structure Session (σ : Type) where
  sessionImpl : SessionImpl σ
  session : CookieSession
  oidcConfig : OidcConfig
  data : SessionData
  timeout : Int

namespace Session

variable {σ : Type}

/-- The method `Session.dataFromDB`. -/
def dataFromDB (s : Session σ) (w : World σ) : Option GoError × Session σ × World σ :=
  match s.session.Values.string? .sessionIdName with
  | none => (some .ErrSessionInvalid, s, w)
  | some id =>
    let res := s.sessionImpl.Get w.db id
    let w : World σ := { db := res.2, calls := w.calls ++ [StoreCall.Get id] }
    match res.1 with
    | .error err =>
      let s := { s with data := SessionData.zero }
      match err with
      | .sqlErrNoRows => (some .ErrSessionNotFound, s, w)
      | _ =>
        (some (.wrap .ErrCannotRetrieveSessionData
          (GoError.ErrCannotRetrieveSessionData.Error ++ ": " ++ err.Error)), s, w)
    | .ok data => (none, { s with data := data }, w)

/-- The method `Session.saveState`. -/
def saveState (s : Session σ) (state : String) (age : Int) : Option GoError × Session σ :=
  let session := { s.session with
    MaxAge := age,
    Values := Function.update s.session.Values .sessionStateName (some (.string state)) }
  (session.Save, { s with session := session })

/-- The method `Session.getState`. -/
def getState (s : Session σ) : String :=
  match s.session.Values.string? .sessionStateName with
  | none => ""
  | some state => state

/-- The method `Session.newData`. -/
def newData (s : Session σ) (token : Token) : Except GoError SessionData :=
  match s.oidcConfig.GetIdToken token with
  | .error err => .error err
  | .ok idToken =>
    .ok { Subject := idToken.Subject, AccessToken := token.AccessToken,
          RefreshToken := token.RefreshToken, IDToken := idToken.RawToken,
          ExpiresAt := token.Expiry }

/-- The method `Session.saveSession`; `MaxAge` is `int(s.timeout.Seconds())`,
computed through float64. -/
def saveSession (s : Session σ) (id : String) : Option GoError × Session σ :=
  let values := Function.update s.session.Values .sessionStateName none
  let values := Function.update values .sessionIdName (some (.string id))
  let session := { s.session with Values := values, MaxAge := durationSeconds s.timeout }
  (session.Save, { s with session := session })

/-- The method `Session.Save`. -/
def Save (s : Session σ) (w : World σ) (token : Token) :
    Option GoError × Session σ × World σ :=
  match s.newData token with
  | .error err => (some err, { s with data := SessionData.zero }, w)
  | .ok data =>
    let s := { s with data := data }
    let res := s.sessionImpl.Add w.db s.data
    let w : World σ := { db := res.2, calls := w.calls ++ [StoreCall.Add s.data] }
    match res.1 with
    | .error err => (some err, s, w)
    | .ok id =>
      let saved := s.saveSession id
      (saved.1, saved.2, w)

/-- The method `Session.Update`. -/
def Update (s : Session σ) (w : World σ) (token : Token) :
    Option GoError × Session σ × World σ :=
  match s.newData token with
  | .error err => (some err, { s with data := SessionData.zero }, w)
  | .ok data =>
    let s := { s with data := data }
    match s.session.Values.string? .sessionIdName with
    | none => (some .ErrSessionInvalid, s, w)
    | some id =>
      let res := s.sessionImpl.Update w.db id s.data
      let w : World σ := { db := res.2, calls := w.calls ++ [StoreCall.Update id s.data] }
      match res.1 with
      | some err => (some err, s, w)
      | none =>
        let saved := s.saveSession id
        (saved.1, saved.2, w)

/-- The method `Session.Delete`. -/
def Delete (s : Session σ) (w : World σ) : Option GoError × Session σ × World σ :=
  match s.session.Values.string? .sessionIdName with
  | none => (some .ErrSessionInvalid, s, w)
  | some id =>
    let res := s.sessionImpl.Delete w.db id
    let w : World σ := { db := res.2, calls := w.calls ++ [StoreCall.Delete id] }
    match res.1 with
    | some err => (some err, s, w)
    | none =>
      let session := { s.session with MaxAge := -1 }
      (session.Save, { s with session := session }, w)

end Session

/-! ## Session manager (`sessions/manager.go`) -/

/-- The `sessions.CookieStore` that `NewManager` builds: the key pairs given to
`sessions.NewCookieStore` and the options it sets. -/
structure CookieStore where
  keyPairs : List Bytes
  HttpOnly : Bool
  MaxAge : Int
  Secure : Bool
  SameSiteStrict : Bool
  Path : String
  Domain : String
  deriving DecidableEq, Repr

/-- The struct `Manager` (the channel `done` belongs to the sweep task). -/
structure Manager (σ : Type) where
  cookieName : String
  loginTimeout : Int
  sessionTimeout : Int
  store : CookieStore
  sessionImpl : SessionImpl σ

/-- The function `NewManager`, up to the start of the sweep task; `impl` is
`c.SessionImpl`, `none` when nil.  Durations are in nanoseconds. -/
def NewManager {σ : Type} (c : Configuration) (impl : Option (SessionImpl σ)) :
    Except GoError (Manager σ) :=
  match impl with
  | none => .error (.wrap .ErrNilValue (GoError.ErrNilValue.Error ++ ": Configuration.DB"))
  | some impl =>
    match c.keyPairsAsSlice with
    | .error err => .error err
    | .ok kpSlice =>
      .ok { cookieName := c.CookieName,
            loginTimeout := Int.tdiv c.LoginTimeout 1000000000,
            sessionTimeout := c.SessionTimeout,
            store := { keyPairs := kpSlice, HttpOnly := true, MaxAge := 0, Secure := true,
                       SameSiteStrict := true, Path := "/", Domain := c.CookieDomain },
            sessionImpl := impl }

/-- A request as the session layer sees it: `cookie` is what the cookie store
makes of the request's cookie under the manager's keys (the decoded value map,
empty when the request has no cookie, or the codec's error); `encode` is the
outcome of writing a cookie on the response; `state` is
`r.URL.Query().Get(sessionStateName)` and `code` is `r.FormValue("code")`. -/
structure Request where
  cookie : Except GoError ValueMap
  encode : ValueMap → Int → Option GoError
  state : String
  code : String

namespace Manager

variable {σ : Type}

/-- The method `Manager.NewSession`. -/
def NewSession (m : Manager σ) (r : Request) (config : OidcConfig) :
    Except GoError (Session σ) :=
  match r.cookie with
  | .error err =>
    .error (.wrap .ErrCannotCreateCookie
      (GoError.ErrCannotCreateCookie.Error ++ " '" ++ m.cookieName ++ "': " ++ err.Error))
  | .ok values =>
    .ok { sessionImpl := m.sessionImpl,
          session := { Values := values, MaxAge := m.store.MaxAge, encode := r.encode },
          oidcConfig := config, data := SessionData.zero, timeout := m.sessionTimeout }

/-- The method `Manager.GetSession`: the handle (`none` is the nil pointer),
the error and the world after the call. -/
def GetSession (m : Manager σ) (r : Request) (config : OidcConfig) (w : World σ) :
    Option (Session σ) × Option GoError × World σ :=
  match r.cookie with
  | .error err =>
    (none, some (.wrap .ErrCannotGetCookie
      (GoError.ErrCannotGetCookie.Error ++ " '" ++ m.cookieName ++ "': " ++ err.Error)), w)
  | .ok values =>
    let s : Session σ :=
      { sessionImpl := m.sessionImpl,
        session := { Values := values, MaxAge := m.store.MaxAge, encode := r.encode },
        oidcConfig := config, data := SessionData.zero, timeout := m.sessionTimeout }
    match s.session.Values.string? .sessionStateName with
    | some _ => (some s, none, w)
    | none =>
      match s.dataFromDB w with
      | (some err, _, w) => (none, some err, w)
      | (none, s, w) => (some s, none, w)

end Manager

/-! ## Authentication middleware (`sessions/middleware.go`) -/

/-- What a handler did: the status codes written through `JsonError`, the
access token put in the context at each call of `next.ServeHTTP`, whether it
ended in a nil-pointer panic, and the world it leaves. -/
structure Served (σ : Type) where
  status : List Nat
  next : List String
  panicked : Bool
  world : World σ

/-- The part of `AuthenticationMiddleware` after the error switch: it reads
`session.data`, so a nil `session` panics. -/
def authenticated {σ : Type} (config : OidcConfig) (now : Time) (status : List Nat)
    (session : Option (Session σ)) (w : World σ) : Served σ :=
  match session with
  | none => { status := status, next := [], panicked := true, world := w }
  | some session =>
    if session.data.IsExpired now then
      match config.Refresh session.data.RefreshToken with
      | .error _ => { status := status ++ [401], next := [], panicked := false, world := w }
      | .ok token =>
        match session.Update w token with
        | (some _, _, w) =>
          { status := status ++ [500], next := [], panicked := false, world := w }
        | (none, session, w) =>
          { status := status, next := [session.data.AccessToken], panicked := false,
            world := w }
    else
      { status := status, next := [session.data.AccessToken], panicked := false, world := w }

/-- The handler returned by `Manager.AuthenticationMiddleware`, run on a
request; `now` is the reading of `time.Now()` in `IsExpired`. -/
def Manager.AuthenticationMiddleware {σ : Type} (m : Manager σ) (config : OidcConfig)
    (r : Request) (now : Time) (w : World σ) : Served σ :=
  match m.GetSession r config w with
  | (session, some err, w) =>
    match err with
    | .ErrCannotGetCookie => authenticated config now [401] session w
    | .ErrSessionNotFound => { status := [401], next := [], panicked := false, world := w }
    | .ErrSessionInvalid => { status := [401], next := [], panicked := false, world := w }
    | _ => { status := [500], next := [], panicked := false, world := w }
  | (session, none, w) => authenticated config now [] session w

/-! ## Login and callback handlers (`sessions/handler.go`) -/

/-- The target of `http.Redirect`: `config.AuthCodeURL(state, ...)` of the
OIDC client for the given state, or a configured URI. -/
inductive Location where
  | authCodeURL (state : String)
  | uri (target : String)
  deriving DecidableEq, Repr

/-- What a login or callback handler did: the status codes it wrote
(`JsonError` or the 302 of `http.Redirect`), the redirect target, the codes it
passed to `config.Exchange`, the handle whose cookie it wrote last, whether it
ended in a nil-pointer panic, and the world it leaves. -/
structure Handled (σ : Type) where
  status : List Nat
  location : Option Location
  exchanged : List String
  session : Option (Session σ)
  panicked : Bool
  world : World σ

/-- The handler returned by `Manager.LoginHandlerOidc`, run on a request;
`state` is the value of `generateOAuthState()`. -/
def Manager.LoginHandlerOidc {σ : Type} (m : Manager σ) (config : OidcConfig)
    (r : Request) (state : String) (w : World σ) : Handled σ :=
  match m.NewSession r config with
  | .error _ =>
    { status := [500], location := none, exchanged := [], session := none,
      panicked := false, world := w }
  | .ok session =>
    match session.saveState state m.loginTimeout with
    | (some _, _) =>
      { status := [500], location := none, exchanged := [], session := none,
        panicked := false, world := w }
    | (none, session) =>
      { status := [302], location := some (.authCodeURL state), exchanged := [],
        session := some session, panicked := false, world := w }

/-- The handler returned by `Manager.CallbackHandlerOidc`, run on a request. -/
def Manager.CallbackHandlerOidc {σ : Type} (m : Manager σ) (config : OidcConfig)
    (postLoginRedirectURI : String) (r : Request) (w : World σ) : Handled σ :=
  match m.GetSession r config w with
  | (_, some _, w) =>
    { status := [500], location := none, exchanged := [], session := none,
      panicked := false, world := w }
  | (none, none, w) =>
    { status := [], location := none, exchanged := [], session := none,
      panicked := true, world := w }
  | (some session, none, w) =>
    let responseState := r.state
    if session.getState ≠ responseState then
      { status := [401], location := none, exchanged := [], session := none,
        panicked := false, world := w }
    else
      match config.Exchange r.code with
      | .error _ =>
        { status := [401], location := none, exchanged := [r.code], session := none,
          panicked := false, world := w }
      | .ok token =>
        match m.NewSession r config with
        | .error _ =>
          { status := [500], location := none, exchanged := [r.code], session := none,
            panicked := false, world := w }
        | .ok newSession =>
          match newSession.Save w token with
          | (some _, _, w) =>
            { status := [500], location := none, exchanged := [r.code], session := none,
              panicked := false, world := w }
          | (none, newSession, w) =>
            { status := [302], location := some (.uri postLoginRedirectURI),
              exchanged := [r.code], session := some newSession, panicked := false,
              world := w }

/-! ## The sweep task (`sessions/manager.go`) -/

/-- The case that the `select` of `expiredSessionsCleaner` takes in one
iteration: a tick received from `ticker.C`, or `ctx.Done()`. -/
inductive SweepEvent where
  | tick
  | cancelled
  deriving DecidableEq, Repr

/-- The state of the sweep task: the world it sweeps, the errors it logged,
whether the function has returned, and how many times its deferred function
ran `ticker.Stop()` and `close(done)`. -/
structure Sweep (σ : Type) where
  world : World σ
  logged : List GoError
  exited : Bool
  stops : Nat
  closes : Nat

/-- The task at its start on the given world. -/
def Sweep.start {σ : Type} (w : World σ) : Sweep σ :=
  { world := w, logged := [], exited := false, stops := 0, closes := 0 }

/-- One iteration of the `for`/`select` loop of `expiredSessionsCleaner` on the
case taken; a task that has returned takes no more steps. -/
def Sweep.step {σ : Type} (db : SessionImpl σ) (st : Sweep σ) (e : SweepEvent) : Sweep σ :=
  if st.exited then st
  else
    match e with
    | .cancelled =>
      { st with exited := true, stops := st.stops + 1, closes := st.closes + 1 }
    | .tick =>
      let res := db.Purge st.world.db
      let w : World σ := { db := res.2, calls := st.world.calls ++ [StoreCall.Purge] }
      match res.1 with
      | some err => { st with world := w, logged := st.logged ++ [err] }
      | none => { st with world := w }

/-- The function `expiredSessionsCleaner` run on the cases that its `select`
takes, in order: the state it has reached after them. -/
def expiredSessionsCleaner {σ : Type} (db : SessionImpl σ) (w : World σ)
    (events : List SweepEvent) : Sweep σ :=
  events.foldl (Sweep.step db) (Sweep.start w)

/-- The package variable `once`, the goroutines and the channels of a process:
how many `done` channels were made (a channel is its number), the goroutines
started by `go once.Do(...)` that the scheduler has not run yet (each is the
channel that its function closes over), whether `once.Do` has run a function,
the channels of the sweep tasks that were started, the channel of the sweep
task that is running, whether `ctx` is cancelled, and the closed channels. -/
structure Process where
  made : Nat
  waiting : List Nat
  once : Bool
  started : List Nat
  sweeper : Option Nat
  cancelled : Bool
  closed : List Nat
  deriving DecidableEq, Repr

/-- A process in which `NewManager` has not been called. -/
def Process.init : Process :=
  { made := 0, waiting := [], once := false, started := [], sweeper := none,
    cancelled := false, closed := [] }

/-- The function `NewManager` with its sweep task: the manager of `NewManager`
and its channel `done`; the statement `go once.Do(...)` only starts a
goroutine, which calls `once.Do` when the scheduler runs it. -/
def Process.NewManager {σ : Type} (p : Process) (c : Configuration)
    (impl : Option (SessionImpl σ)) : Except GoError (Manager σ × Nat) × Process :=
  match TokenHandler.NewManager c impl with
  | .error err => (.error err, p)
  | .ok m =>
    let done := p.made
    (.ok (m, done), { p with made := p.made + 1, waiting := p.waiting ++ [done] })

/-- The scheduler runs the goroutine started for the channel `done`: its call
of `once.Do` runs `expiredSessionsCleaner(ctx, c.SessionImpl, done)` if no call
of `once.Do` has run a function before, and nothing otherwise. -/
def Process.onceDo (p : Process) (done : Nat) : Process :=
  if done ∈ p.waiting then
    let p := { p with waiting := p.waiting.erase done }
    if p.once then p
    else { p with once := true, started := p.started ++ [done], sweeper := some done }
  else p

/-- The cancellation signal fires: `ctx` is cancelled. -/
def Process.cancel (p : Process) : Process :=
  { p with cancelled := true }

/-- The running sweep task takes the case `<-ctx.Done()` of its `select` and
returns: its deferred function closes the channel it holds. -/
def Process.sweepReturns (p : Process) : Process :=
  if p.cancelled then
    match p.sweeper with
    | some done => { p with sweeper := none, closed := p.closed ++ [done] }
    | none => p
  else p

/-- What happens next in a process: the main goroutine calls `NewManager`, the
scheduler runs the goroutine of a channel, the cancellation signal fires, or
the sweep task returns. -/
inductive ProcessEvent where
  | newManager
  | onceDo (done : Nat)
  | cancel
  | sweepReturns
  deriving DecidableEq, Repr

/-- One event in a process whose calls of `NewManager` pass `c` and `impl`. -/
def Process.step {σ : Type} (c : Configuration) (impl : Option (SessionImpl σ))
    (p : Process) (e : ProcessEvent) : Process :=
  match e with
  | .newManager => (p.NewManager c impl).2
  | .onceDo done => p.onceDo done
  | .cancel => p.cancel
  | .sweepReturns => p.sweepReturns

/-- The process after a schedule of events, from its start. -/
def Process.run {σ : Type} (c : Configuration) (impl : Option (SessionImpl σ))
    (events : List ProcessEvent) : Process :=
  events.foldl (Process.step c impl) Process.init

/-- The method `Manager.WaitSessionCleaner` on a manager whose channel is
`done`: the receive `<-m.done` returns when the channel is closed (nothing is
ever sent on it). -/
def Process.WaitSessionCleaner (p : Process) (done : Nat) : Bool :=
  decide (done ∈ p.closed)

/-! ## Store constructors (`database/sqlite.go`, `database/postgresql.go`) -/

/-- The package variables of an engine: its `sync.Once` (`sqliteOnce`,
`pgOnce`) and its instance pointer (`sqliteInstance`, `pgInstance`), `none`
when nil. -/
structure Singleton where
  once : Bool
  inst : Option Store

/-- The package variables before any call. -/
def Singleton.init : Singleton := { once := false, inst := none }

/-- The body shared by `NewSQLiteSessionImpl` and `NewPostgresqlSessionImpl`
for engine `e`: `connect` is the error of `sql.Open` / `pgx.Connect`, `create`
the error of the `CREATE TABLE` statement, `table` the content of the table at
that time.  The result is the returned store (`none` is the nil pointer), the
returned error, and the package variables after the call. -/
def newSessionImpl (e : Engine) (pkg : Singleton) (cipher : Option HexCipher)
    (connect create : Option GoError) (table : Table) :
    Option Store × Option GoError × Singleton :=
  let ran : Option GoError × Singleton :=
    if pkg.once then (none, pkg)
    else
      match connect with
      | some err => (some err, { pkg with once := true })
      | none =>
        match create with
        | some err => (some err, { pkg with once := true })
        | none =>
          (none, { once := true, inst := some { engine := e, cipher := cipher, table := table } })
  match ran.1 with
  | some err => (none, some err, ran.2)
  | none => (ran.2.inst, none, ran.2)

/-- The function `NewSQLiteSessionImpl`. -/
def NewSQLiteSessionImpl (pkg : Singleton) (cipher : Option HexCipher)
    (connect create : Option GoError) (table : Table) :
    Option Store × Option GoError × Singleton :=
  newSessionImpl .sqlite pkg cipher connect create table

/-- The function `NewPostgresqlSessionImpl`. -/
def NewPostgresqlSessionImpl (pkg : Singleton) (cipher : Option HexCipher)
    (connect create : Option GoError) (table : Table) :
    Option Store × Option GoError × Singleton :=
  newSessionImpl .postgresql pkg cipher connect create table

/-! ## Configuration validation (`config/config.go`, `main.go`) -/

/-- The errors of the package `config`; a constructor with a name is the
sentinel wrapped by `fmt.Errorf("%w: %s", ...)` with that parameter name. -/
inductive ConfigError where
  | ErrMissingParameter (name : String)
  | ErrDefaultCookieDomainInProduction
  | ErrDefaultAuthSecretInProduction
  | ErrWrongAuthSecretSize (name : String)
  | ErrWrongEncSecretSize (name : String)
  | ErrWrongEncDBKey (name : String)
  | ErrWrongDBType
  | ErrMissingSQLiteDatabase
  | ErrMissingDBServerHost
  | ErrMissingDBServerDatabase
  | ErrMissingDBServerUsername
  | ErrMissingDBServerPassword
  deriving DecidableEq, Repr

/-- The struct `Config`; the secrets and keys, whose byte length is checked,
are byte lists. -/
structure Config where
  IsProduction : Bool
  LogLevel : String
  OidcIssuer : String
  OidcClientID : String
  OidcClientSecret : String
  OidcRedirectURL : String
  OidcPostLoginRedirectURL : String
  OidcPostLogoutRedirectURL : String
  ListenAddr : String
  CookieDomain : String
  CookieName : String
  SessionAuthSecret : Bytes
  SessionEncSecret : Bytes
  SessionOldAuthSecret : Bytes
  SessionOldEncSecret : Bytes
  SessionDBKey : Bytes
  SessionOldDBKey : Bytes
  ProxyConfig : String
  DBType : String
  DBHost : String
  DBName : String
  DBUsername : String
  DBPassword : String
  deriving DecidableEq, Repr

/-- The constant `defaultCookieDomain`. -/
def defaultCookieDomain : String := "localhost"

/-- The constant `defaultSessionAuthSecret`, the bytes of
`"my-secret-key-CHANGE-ME-IN-PROD!"`. -/
def defaultSessionAuthSecret : Bytes :=
  [109, 121, 45, 115, 101, 99, 114, 101, 116, 45, 107, 101, 121, 45, 67, 72, 65, 78, 71, 69,
   45, 77, 69, 45, 73, 78, 45, 80, 82, 79, 68, 33]

/-- The method `Config.configValidate`: the error it returns, `none` when the
configuration is accepted. -/
def Config.configValidate (c : Config) : Option ConfigError :=
  if c.OidcIssuer = "" then some (.ErrMissingParameter "oidc-issuer")
  else if c.OidcClientID = "" then some (.ErrMissingParameter "oidc-client-id")
  else if c.OidcClientSecret = "" then some (.ErrMissingParameter "oidc-client-secret")
  else if c.OidcRedirectURL = "" then some (.ErrMissingParameter "oidc-redirect-url")
  else if c.OidcPostLoginRedirectURL = "" then
    some (.ErrMissingParameter "oidc-post-login-redirect-url")
  else if c.OidcPostLogoutRedirectURL = "" then
    some (.ErrMissingParameter "oidc-post-logout-redirect-url")
  else if c.ListenAddr = "" then some (.ErrMissingParameter "listen-addr")
  else if c.CookieDomain = "" then some (.ErrMissingParameter "cookie-domain")
  else if c.CookieName = "" then some (.ErrMissingParameter "cookie-name")
  else if c.SessionAuthSecret = [] then some (.ErrMissingParameter "session-secret")
  else if c.CookieDomain = defaultCookieDomain ∧ c.IsProduction = true then
    some .ErrDefaultCookieDomainInProduction
  else if c.SessionAuthSecret = defaultSessionAuthSecret ∧ c.IsProduction = true then
    some .ErrDefaultAuthSecretInProduction
  else if c.SessionAuthSecret.length ≠ 32 ∧ c.SessionAuthSecret.length ≠ 64 then
    some (.ErrWrongAuthSecretSize "session-auth-secret")
  else if c.SessionEncSecret ≠ [] ∧ c.SessionEncSecret.length ≠ 16 ∧
      c.SessionEncSecret.length ≠ 24 ∧ c.SessionEncSecret.length ≠ 32 then
    some (.ErrWrongEncSecretSize "session-enc-secret")
  else if c.SessionOldAuthSecret ≠ [] ∧ c.SessionOldAuthSecret.length ≠ 32 ∧
      c.SessionOldAuthSecret.length ≠ 64 then
    some (.ErrWrongAuthSecretSize "session-old-auth-secret")
  else if c.SessionOldEncSecret ≠ [] ∧ c.SessionOldEncSecret.length ≠ 16 ∧
      c.SessionOldEncSecret.length ≠ 24 ∧ c.SessionOldEncSecret.length ≠ 32 then
    some (.ErrWrongEncSecretSize "session-old-enc-secret")
  else if c.SessionDBKey ≠ [] ∧ c.SessionDBKey.length ≠ 32 then
    some (.ErrWrongEncDBKey "session-db-key")
  else if c.SessionOldDBKey ≠ [] ∧ c.SessionOldDBKey.length ≠ 32 then
    some (.ErrWrongEncDBKey "session-old-db-key")
  else if c.DBType ≠ "sqlite" ∧ c.DBType ≠ "postgresql" then some .ErrWrongDBType
  else if c.DBType = "sqlite" ∧ c.DBName = "" then some .ErrMissingSQLiteDatabase
  else if c.DBType = "postgresql" then
    if c.DBHost = "" then some .ErrMissingDBServerHost
    else if c.DBName = "" then some .ErrMissingDBServerDatabase
    else if c.DBUsername = "" then some .ErrMissingDBServerUsername
    else if c.DBPassword = "" then some .ErrMissingDBServerPassword
    else none
  else none

/-- The `sessions.Configuration` that `main` builds from a `Config`: timeouts
of 5 and 30 minutes, in nanoseconds. -/
def Config.sessionsConfiguration (c : Config) : Configuration :=
  { CookieName := c.CookieName, CookieDomain := c.CookieDomain,
    NewKeyPair := { Authentication := c.SessionAuthSecret, Encryption := c.SessionEncSecret },
    OldKeyPair := { Authentication := c.SessionOldAuthSecret,
                    Encryption := c.SessionOldEncSecret },
    LoginTimeout := 300000000000, SessionTimeout := 1800000000000 }

/-! ## Concrete inputs used by the evaluations -/

/-- A value map that holds only a session identifier. -/
def valuesWithId (id : String) : ValueMap := fun k =>
  match k with
  | .sessionIdName => some (.string id)
  | .sessionStateName => none

/-- A backend on the given engine and table, without cipher. -/
def backendOf (engine : Engine) (table : Table) : Backend :=
  { db := { engine := engine, cipher := none, table := table },
    uuid := fun _ => "00000000-0000-4000-8000-000000000000", minted := 0, clock := ⟨0, 0⟩ }

/-- An OIDC collaborator whose provider cannot be reached. -/
def oidcDown : OidcConfig :=
  { NewProvider := some (.foreign "provider unreachable"),
    Verify := fun _ => .error (.foreign "provider unreachable"),
    TokenSource := fun _ => .error (.foreign "provider unreachable"),
    Exchange := fun _ => .error (.foreign "provider unreachable") }

/-- A handle on an engine, as `GetSession` builds it from a decoded cookie. -/
def handleOf (values : ValueMap) : Session Backend :=
  { sessionImpl := Backend.impl,
    session := { Values := values, MaxAge := 0, encode := fun _ _ => none },
    oidcConfig := oidcDown, data := SessionData.zero, timeout := 1800000000000 }

/-- A cipher that writes a two-character header before the text and removes
it again: decryption inverts encryption, and no ciphertext is empty. -/
def headerCipher : HexCipher :=
  { EncryptToHexString := fun s => .ok ("a5" ++ s),
    DecryptFromHexString := fun s => .ok (String.mk (s.data.drop 2)) }

/-- A value map that holds only a login-state nonce. -/
def valuesWithState (state : String) : ValueMap := fun k =>
  match k with
  | .sessionStateName => some (.string state)
  | .sessionIdName => none

/-- A token with the given access token, identity token and expiry. -/
def tokenOf (access idToken : String) (expiry : Time) : Token :=
  { AccessToken := access, RefreshToken := "rt-" ++ access, Expiry := expiry,
    id_token := some idToken }

/-- An OIDC collaborator that is reachable: the identity token `"idt-mallory"`
verifies with subject `"mallory"`, every other one with subject `"alice"`; the
token endpoint answers every refresh request and every code exchange with
`issued` (the empty refresh token never reaches it, see `OidcConfig.Refresh`). -/
def oidcOf (issued : Token) : OidcConfig :=
  { NewProvider := none,
    Verify := fun raw => .ok (if raw = "idt-mallory" then "mallory" else "alice"),
    TokenSource := fun _ => .ok issued,
    Exchange := fun _ => .ok issued }

/-- A handle on an engine with a reachable OIDC collaborator and a session
timeout of 30 minutes. -/
def handleWith (config : OidcConfig) (values : ValueMap) : Session Backend :=
  { sessionImpl := Backend.impl,
    session := { Values := values, MaxAge := 0, encode := fun _ _ => none },
    oidcConfig := config, data := SessionData.zero, timeout := 1800000000000 }

/-- A manager on an engine: login timeout 5 minutes, session timeout 30
minutes, as `main` configures them. -/
def managerOf : Manager Backend :=
  { cookieName := "session", loginTimeout := 300, sessionTimeout := 1800000000000,
    store := { keyPairs := [keyOf 32 1, []], HttpOnly := true, MaxAge := 0, Secure := true,
               SameSiteStrict := true, Path := "/", Domain := "example.org" },
    sessionImpl := Backend.impl }

/-- A request with the given decoded cookie, `state` parameter and `code`,
whose cookie writes succeed. -/
def requestOf (values : ValueMap) (state code : String) : Request :=
  { cookie := .ok values, encode := fun _ _ => none, state := state, code := code }

/-- A store implementation whose connection is down: every call fails. -/
def downImpl : SessionImpl Unit :=
  { CloseConnection := fun u => (some (.foreign "connection refused"), u),
    Add := fun u _ => (.error (.foreign "connection refused"), u),
    Delete := fun u _ => (some (.foreign "connection refused"), u),
    Get := fun u _ => (.error (.foreign "connection refused"), u),
    Update := fun u _ _ => (some (.foreign "connection refused"), u),
    Purge := fun u => (some (.foreign "connection refused"), u) }

/-- A cipher that decrypts like `headerCipher` but cannot encrypt. -/
def readOnlyCipher : HexCipher :=
  { EncryptToHexString := fun _ => .error (.foreign "no entropy"),
    DecryptFromHexString := fun s => .ok (String.mk (s.data.drop 2)) }

/-- A world on an empty table of the given engine, before any call. -/
def freshWorld (engine : Engine) : World Backend :=
  { db := backendOf engine [], calls := [] }

/-- A world on the given table of the given engine, before any call. -/
def worldOf (engine : Engine) (table : Table) : World Backend :=
  { db := backendOf engine table, calls := [] }

/-- A token of subject `"alice"` whose access token expires at second
1700000000. -/
def aliceToken : Token := tokenOf "at-1" "idt-alice" ⟨1700000000, 0⟩

/-- A token whose identity token names the subject `"mallory"`. -/
def malloryToken : Token := tokenOf "at-2" "idt-mallory" ⟨1700000900, 0⟩

/-- A table with one record of subject `"alice"` under the identifier
`"id-1"`, its access token expiring at second 1700000000. -/
def aliceTable : Table :=
  [⟨"id-1", "alice", "at-0", "rt-at-0", "idt-alice", 1700000000⟩]

/-- Scenario B on the given engine: `Save` of `aliceToken` on a fresh handle,
then `Delete` and `dataFromDB` on the same handle; the three errors returned. -/
def saveDeleteLoad (engine : Engine) : Option GoError × Option GoError × Option GoError :=
  let saved := (handleWith (oidcOf aliceToken) (fun _ => none)).Save (freshWorld engine) aliceToken
  let deleted := saved.2.1.Delete saved.2.2
  let loaded := deleted.2.1.dataFromDB deleted.2.2
  (saved.1, deleted.1, loaded.1)

/-- A configuration with valid keys, a login timeout of 5 minutes and a
session timeout of 30 minutes (in nanoseconds). -/
def mainConfiguration : Configuration :=
  { CookieName := "session", CookieDomain := "example.org",
    NewKeyPair := ⟨keyOf 32 1, []⟩, OldKeyPair := ⟨[], []⟩,
    LoginTimeout := 300000000000, SessionTimeout := 1800000000000 }

/-- A configuration of a development deployment on SQLite with the given
session secrets; every mandatory parameter is set. -/
def configOf (auth enc oldAuth oldEnc : Bytes) : Config :=
  { IsProduction := false, LogLevel := "info", OidcIssuer := "https://issuer.example.org",
    OidcClientID := "client", OidcClientSecret := "secret",
    OidcRedirectURL := "https://app.example.org/callback",
    OidcPostLoginRedirectURL := "https://app.example.org/",
    OidcPostLogoutRedirectURL := "https://app.example.org/bye",
    ListenAddr := ":9080", CookieDomain := "example.org", CookieName := "session",
    SessionAuthSecret := auth, SessionEncSecret := enc, SessionOldAuthSecret := oldAuth,
    SessionOldEncSecret := oldEnc, SessionDBKey := [], SessionOldDBKey := [],
    ProxyConfig := "", DBType := "sqlite", DBHost := "", DBName := "sessions.db",
    DBUsername := "", DBPassword := "" }

/-- A store implementation whose `Purge` fails at every other call (its state
counts the calls). -/
def flakyImpl : SessionImpl Nat :=
  { CloseConnection := fun n => (none, n),
    Add := fun n _ => (.error (.foreign "read only"), n),
    Delete := fun n _ => (none, n),
    Get := fun n _ => (.error .sqlErrNoRows, n),
    Update := fun n _ _ => (some .sqlErrNoRows, n),
    Purge := fun n => (if n % 2 = 0 then some (.foreign "database is locked") else none, n + 1) }

/-- Two calls of `NewManager`, each goroutine run right after its call (the
first manager wins `once`), then cancellation and the return of the sweep
task. -/
def firstWinsSchedule : List ProcessEvent :=
  [.newManager, .onceDo 0, .newManager, .onceDo 1, .cancel, .sweepReturns]

/-- Two calls of `NewManager` whose goroutines the scheduler runs in the other
order (the second manager wins `once`), then cancellation and the return of
the sweep task. -/
def secondWinsSchedule : List ProcessEvent :=
  [.newManager, .newManager, .onceDo 1, .onceDo 0, .cancel, .sweepReturns]

/-- The package variables after a first call of `NewSQLiteSessionImpl` in
which `sql.Open` failed. -/
def afterFailedOpen : Singleton :=
  (NewSQLiteSessionImpl Singleton.init none
    (some (.foreign "unable to open database file")) none []).2.2

/-- The package variables after a first call of `NewPostgresqlSessionImpl` in
which `pgx.Connect` failed. -/
def afterFailedConnect : Singleton :=
  (NewPostgresqlSessionImpl Singleton.init none
    (some (.foreign "connection refused")) none []).2.2

/-- A configuration like `mainConfiguration` whose session timeout is
16777216.999999999 seconds. -/
def fractionalConfiguration : Configuration :=
  { mainConfiguration with SessionTimeout := 16777216999999999 }

/-- The `MaxAge` of the cookie after a successful `Save` of `aliceToken` on the
handle that `NewSession` makes on the manager that `NewManager` builds from
`c` over an empty SQLite table. -/
def savedMaxAge (c : Configuration) : Except GoError Int :=
  match NewManager c (some Backend.impl) with
  | .error err => .error err
  | .ok m =>
    match m.NewSession (requestOf (fun _ => none) "" "") (oidcOf aliceToken) with
    | .error err => .error err
    | .ok s =>
      match s.Save (freshWorld .sqlite) aliceToken with
      | (some err, _, _) => .error err
      | (none, s, _) => .ok s.session.MaxAge

/-! ## Helper lemmas: key pairs -/

theorem appendSlice_auth_error (mc : Configuration) (slice : List Bytes) (pt : parseType)
    (h32 : (match pt with
      | .parseCurrent => mc.NewKeyPair
      | .parseOld => mc.OldKeyPair).Authentication.length ≠ 32)
    (h64 : (match pt with
      | .parseCurrent => mc.NewKeyPair
      | .parseOld => mc.OldKeyPair).Authentication.length ≠ 64) :
    ∃ e, mc.appendSlice slice pt = .error e ∧ e.Is .ErrWrongAuthSecretSize = true := by
  refine ⟨.wrap .ErrWrongAuthSecretSize
    (GoError.ErrWrongAuthSecretSize.Error ++ ": " ++ pt.text ++ " authentication key"), ?_, ?_⟩
  · unfold Configuration.appendSlice
    simp only []
    rw [if_pos ⟨h32, h64⟩]
  · simp [GoError.Is]

/-! ## Theorems: key pairs -/

/-- C1 (code defect): with two valid key pairs and a non-empty previous
authentication key, `keyPairsAsSlice` returns only the previous pair
`[previous.authKey, previous.encKey]`; the current pair, which the claim puts
first, is not in the list. -/
theorem keyPairsAsSlice_rotation_drops_current_pair :
    (cfgOf ⟨keyOf 32 1, []⟩ ⟨keyOf 32 2, []⟩).keyPairsAsSlice = .ok [keyOf 32 2, []] ∧
    (cfgOf ⟨keyOf 32 1, []⟩ ⟨keyOf 32 2, []⟩).keyPairsAsSlice
      ≠ .ok [keyOf 32 1, [], keyOf 32 2, []] := by
  decide

/-- C3 (code defect): with a valid authentication key, `appendSlice` rejects a
24-byte encryption key with an error wrapping `ErrWrongEncSecretSize` and
accepts a 64-byte one. -/
theorem appendSlice_rejects_24_accepts_64 :
    (cfgOf ⟨keyOf 32 1, keyOf 24 3⟩ ⟨[], []⟩).appendSlice [] .parseCurrent
      = .error (.wrap .ErrWrongEncSecretSize
          "the session encryption key should have a size of 16, 24 or 32 bytes: current encryption key") ∧
    (cfgOf ⟨keyOf 32 1, keyOf 24 3⟩ ⟨[], []⟩).keyPairsAsSlice
      = .error (.wrap .ErrWrongEncSecretSize
          "the session encryption key should have a size of 16, 24 or 32 bytes: current encryption key") ∧
    (cfgOf ⟨keyOf 32 1, keyOf 64 3⟩ ⟨[], []⟩).appendSlice [] .parseCurrent
      = .ok [keyOf 32 1, keyOf 64 3] ∧
    (cfgOf ⟨keyOf 32 1, keyOf 64 3⟩ ⟨[], []⟩).keyPairsAsSlice
      = .ok [keyOf 32 1, keyOf 64 3] := by
  decide

/-- C4 (counterexample): with an empty current authentication key (length 0,
neither 32 nor 64) and a 5-byte previous authentication key, `keyPairsAsSlice`
returns the empty key list and no error; and with a valid current
authentication key, a 5-byte current encryption key and a 5-byte previous
authentication key, the error does not wrap `ErrWrongAuthSecretSize`. -/
theorem keyPairsAsSlice_empty_current_key_no_error :
    (cfgOf ⟨[], []⟩ ⟨keyOf 5 2, []⟩).NewKeyPair.Authentication.length ≠ 32 ∧
    (cfgOf ⟨[], []⟩ ⟨keyOf 5 2, []⟩).NewKeyPair.Authentication.length ≠ 64 ∧
    (cfgOf ⟨[], []⟩ ⟨keyOf 5 2, []⟩).OldKeyPair.Authentication ≠ [] ∧
    (cfgOf ⟨[], []⟩ ⟨keyOf 5 2, []⟩).keyPairsAsSlice = .ok [] ∧
    (∀ e, (cfgOf ⟨keyOf 32 1, keyOf 5 3⟩ ⟨keyOf 5 2, []⟩).keyPairsAsSlice = .error e →
      e.Is .ErrWrongAuthSecretSize = false) := by
  refine ⟨by decide, by decide, by decide, by decide, ?_⟩
  intro e he
  have h : (cfgOf ⟨keyOf 32 1, keyOf 5 3⟩ ⟨keyOf 5 2, []⟩).keyPairsAsSlice
      = .error (.wrap .ErrWrongEncSecretSize
          "the session encryption key should have a size of 16, 24 or 32 bytes: current encryption key") := by
    decide
  rw [h] at he
  cases he
  decide

/-- C4 (amended): `keyPairsAsSlice`, and `NewManager` on a non-nil store, fail
with an error wrapping `ErrWrongAuthSecretSize` and return no key list when the
current authentication key is non-empty with a length other than 32 and 64,
and when the current pair is accepted and the previous authentication key is
non-empty with a length other than 32 and 64; with an empty current
authentication key `keyPairsAsSlice` returns the empty list and no error. -/
theorem keyPairsAsSlice_auth_size (mc : Configuration) :
    (mc.NewKeyPair.Authentication = [] → mc.keyPairsAsSlice = .ok []) ∧
    ((mc.NewKeyPair.Authentication ≠ [] ∧ mc.NewKeyPair.Authentication.length ≠ 32 ∧
        mc.NewKeyPair.Authentication.length ≠ 64) ∨
      (mc.NewKeyPair.Authentication ≠ [] ∧
        (∃ slice, mc.appendSlice [] .parseCurrent = .ok slice) ∧
        mc.OldKeyPair.Authentication ≠ [] ∧ mc.OldKeyPair.Authentication.length ≠ 32 ∧
        mc.OldKeyPair.Authentication.length ≠ 64) →
      (∃ e, mc.keyPairsAsSlice = .error e ∧ e.Is .ErrWrongAuthSecretSize = true) ∧
      ∀ (σ : Type) (impl : SessionImpl σ),
        ∃ e, NewManager mc (some impl) = .error e ∧ e.Is .ErrWrongAuthSecretSize = true) := by
  constructor
  · intro h
    simp [Configuration.keyPairsAsSlice, h]
  · intro h
    have key : ∃ e, mc.keyPairsAsSlice = .error e ∧ e.Is .ErrWrongAuthSecretSize = true := by
      rcases h with ⟨hne, h32, h64⟩ | ⟨hne, ⟨slice, hs⟩, hone, h32, h64⟩
      · obtain ⟨e, he, his⟩ := appendSlice_auth_error mc [] .parseCurrent h32 h64
        exact ⟨e, by simp [Configuration.keyPairsAsSlice, hne, he], his⟩
      · obtain ⟨e, he, his⟩ := appendSlice_auth_error mc [] .parseOld h32 h64
        exact ⟨e, by simp [Configuration.keyPairsAsSlice, hne, hs, hone, he], his⟩
    refine ⟨key, ?_⟩
    intro σ impl
    obtain ⟨e, he, his⟩ := key
    exact ⟨e, by simp [NewManager, he], his⟩

theorem keyPairsAsSlice_auth_size_witness :
    (∃ e, (cfgOf ⟨keyOf 32 1, []⟩ ⟨keyOf 5 2, []⟩).keyPairsAsSlice = .error e ∧
      e.Is .ErrWrongAuthSecretSize = true) ∧
    (∃ e, (cfgOf ⟨keyOf 7 1, []⟩ ⟨[], []⟩).keyPairsAsSlice = .error e ∧
      e.Is .ErrWrongAuthSecretSize = true) ∧
    (cfgOf ⟨[], []⟩ ⟨keyOf 5 2, []⟩).keyPairsAsSlice = .ok [] :=
  ⟨((keyPairsAsSlice_auth_size (cfgOf ⟨keyOf 32 1, []⟩ ⟨keyOf 5 2, []⟩)).2
      (Or.inr ⟨by decide, ⟨[keyOf 32 1, []], by decide⟩, by decide, by decide, by decide⟩)).1,
   ((keyPairsAsSlice_auth_size (cfgOf ⟨keyOf 7 1, []⟩ ⟨[], []⟩)).2
      (Or.inl ⟨by decide, by decide, by decide⟩)).1,
   (keyPairsAsSlice_auth_size (cfgOf ⟨[], []⟩ ⟨keyOf 5 2, []⟩)).1 (by decide)⟩

/-! ## Theorems: session handle and middleware -/

/-- C2 (code defect): on every request whose cookie the cookie store cannot read,
`GetSession` returns an error wrapping `ErrCannotGetCookie`, which is not `==`
to `ErrCannotGetCookie`, and `AuthenticationMiddleware` answers 500 Internal
Server Error (not 401); the wrapped handler is not invoked. -/
theorem middleware_cookie_read_error_answers_500 {σ : Type} (m : Manager σ)
    (config : OidcConfig) (now : Time) (w : World σ) (err : GoError)
    (encode : ValueMap → Int → Option GoError) (state code : String) :
    (m.GetSession { cookie := .error err, encode := encode, state := state, code := code }
        config w).2.1
      = some (.wrap .ErrCannotGetCookie
          (GoError.ErrCannotGetCookie.Error ++ " '" ++ m.cookieName ++ "': " ++ err.Error)) ∧
    (m.AuthenticationMiddleware config
        { cookie := .error err, encode := encode, state := state, code := code } now w).status
      = [500] ∧
    (m.AuthenticationMiddleware config
        { cookie := .error err, encode := encode, state := state, code := code } now w).next
      = [] ∧
    (m.AuthenticationMiddleware config
        { cookie := .error err, encode := encode, state := state, code := code } now w).panicked
      = false := by
  simp [Manager.AuthenticationMiddleware, Manager.GetSession]

/-- The outcomes of `dataFromDB` by the result of `Get`: it fails with
`ErrSessionInvalid`, without calling the store (same world, same handle), when
the value map holds no string identifier; with an identifier it calls `Get`
once and fails with `ErrSessionNotFound` when `Get` returns `sql.ErrNoRows`,
fails with an error wrapping `ErrCannotRetrieveSessionData` on any other `Get`
error, and otherwise succeeds and caches exactly the record that `Get`
returned. -/
theorem dataFromDB_by_Get_result {σ : Type} (s : Session σ) (w : World σ) :
    (s.session.Values.string? .sessionIdName = none →
      s.dataFromDB w = (some .ErrSessionInvalid, s, w)) ∧
    (∀ id, s.session.Values.string? .sessionIdName = some id →
      (s.dataFromDB w).2.2 = { db := (s.sessionImpl.Get w.db id).2,
                               calls := w.calls ++ [StoreCall.Get id] } ∧
      ((s.sessionImpl.Get w.db id).1 = .error .sqlErrNoRows →
        (s.dataFromDB w).1 = some .ErrSessionNotFound) ∧
      (∀ err, (s.sessionImpl.Get w.db id).1 = .error err → err ≠ .sqlErrNoRows →
        ∃ e, (s.dataFromDB w).1 = some e ∧ e.Is .ErrCannotRetrieveSessionData = true ∧
          e.Is .ErrSessionNotFound = false) ∧
      (∀ data, (s.sessionImpl.Get w.db id).1 = .ok data →
        (s.dataFromDB w).1 = none ∧ (s.dataFromDB w).2.1 = { s with data := data })) := by
  refine ⟨?_, ?_⟩
  · intro h
    simp [Session.dataFromDB, h]
  · intro id h
    refine ⟨?_, ?_, ?_, ?_⟩
    · unfold Session.dataFromDB
      simp only [h]
      cases hg : (s.sessionImpl.Get w.db id).1 with
      | ok data => rfl
      | error err => cases err <;> rfl
    · intro hg
      simp [Session.dataFromDB, h, hg]
    · intro err hg hne
      refine ⟨.wrap .ErrCannotRetrieveSessionData
        (GoError.ErrCannotRetrieveSessionData.Error ++ ": " ++ err.Error), ?_, ?_, ?_⟩
      · unfold Session.dataFromDB
        simp only [h, hg]
      · simp [GoError.Is]
      · simp [GoError.Is]
    · intro data hg
      simp [Session.dataFromDB, h, hg]

theorem dataFromDB_by_Get_result_sqlite :
    ((handleOf (valuesWithId "gone")).dataFromDB
        { db := backendOf .sqlite [], calls := [] }).1 = some .ErrSessionNotFound ∧
    ((handleOf (valuesWithId "gone")).dataFromDB
        { db := backendOf .sqlite [], calls := [] }).2.2.calls = [StoreCall.Get "gone"] ∧
    ((handleOf (fun _ => none)).dataFromDB
        { db := backendOf .sqlite [], calls := [] }).1 = some .ErrSessionInvalid :=
  ⟨((dataFromDB_by_Get_result (handleOf (valuesWithId "gone"))
      { db := backendOf .sqlite [], calls := [] }).2 "gone" (by decide)).2.1 (by decide),
   by decide,
   by rw [((dataFromDB_by_Get_result (handleOf (fun _ => none))
      { db := backendOf .sqlite [], calls := [] }).1 (by decide))]⟩

/-- C9 (code defect): for an identifier with no stored record, `Get` and `Update`
of the SQLite engine return `sql.ErrNoRows` and those of the PostgreSQL engine
return `pgx.ErrNoRows`, a different error value; so `dataFromDB` reports
`ErrSessionNotFound` on SQLite and an error wrapping
`ErrCannotRetrieveSessionData` on PostgreSQL. -/
theorem missing_record_error_differs_between_engines :
    (Store.mk .sqlite none []).Get "gone" = .error .sqlErrNoRows ∧
    (Store.mk .postgresql none []).Get "gone" = .error .pgxErrNoRows ∧
    ((Store.mk .sqlite none []).Update "gone" ⟨"u", "a", "r", "i", ⟨0, 0⟩⟩).1
      = some .sqlErrNoRows ∧
    ((Store.mk .postgresql none []).Update "gone" ⟨"u", "a", "r", "i", ⟨0, 0⟩⟩).1
      = some .pgxErrNoRows ∧
    ((handleOf (valuesWithId "gone")).dataFromDB
        { db := backendOf .sqlite [], calls := [] }).1 = some .ErrSessionNotFound ∧
    ((handleOf (valuesWithId "gone")).dataFromDB
        { db := backendOf .postgresql [], calls := [] }).1
      = some (.wrap .ErrCannotRetrieveSessionData
          "cannot retrieve session data: no rows in result set") := by
  decide

/-! ## Helper lemmas: store -/

theorem find?_append_fresh (t : Table) (r : Row)
    (h : t.any (fun x => x.session_id == r.session_id) = false) :
    (t ++ [r]).find? (fun x => x.session_id == r.session_id) = some r := by
  induction t with
  | nil => simp
  | cons a t ih =>
    simp only [List.any_cons, Bool.or_eq_false_iff] at h
    simp [List.find?_cons, h.1, ih h.2]

theorem execInsert_ok (e : Engine) (t t' : Table) (r : Row)
    (h : execInsert e t r = .ok t') :
    t' = t ++ [r] ∧ t.any (fun x => x.session_id == r.session_id) = false := by
  unfold execInsert at h
  split at h
  · cases h
  · split at h
    · cases h
    · split at h
      · cases h
      · rename_i hany
        cases h
        exact ⟨rfl, by simpa using hany⟩

theorem decryptArgs_encryptArgs (cipher : Option HexCipher) (s enc : SessionData) (at_ : Time)
    (hinv : ∀ c, cipher = some c → ∀ x y,
      c.EncryptToHexString x = .ok y → c.DecryptFromHexString y = .ok x)
    (h : encryptArgs cipher s = .ok enc) :
    decryptArgs cipher { enc with ExpiresAt := at_ } = .ok { s with ExpiresAt := at_ } := by
  cases cipher with
  | none =>
    simp only [encryptArgs] at h
    cases h
    rfl
  | some c =>
    have hc := hinv c rfl
    simp only [encryptArgs] at h
    cases ha : c.EncryptToHexString s.AccessToken with
    | error err => simp [ha] at h
    | ok a =>
      cases hr : c.EncryptToHexString s.RefreshToken with
      | error err => simp [ha, hr] at h
      | ok r =>
        cases hi : c.EncryptToHexString s.IDToken with
        | error err => simp [ha, hr, hi] at h
        | ok i =>
          simp only [ha, hr, hi] at h
          cases h
          simp [decryptArgs, hc _ _ ha, hc _ _ hr, hc _ _ hi]

/-! ## Theorems: store -/

/-- C5: for either engine, when `Get(id)` returns `r1` and `r2.Subject` differs
from `r1.Subject`, `Update(id, r2)` returns `ErrSessionsMismatch` and leaves
the store as it was, so that a following `Get(id)` still returns `r1`. -/
theorem Update_subject_mismatch (db : Store) (id : String) (r1 r2 : SessionData)
    (hget : db.Get id = .ok r1) (hsub : r2.Subject ≠ r1.Subject) :
    (db.Update id r2).1 = some .ErrSessionsMismatch ∧
    (db.Update id r2).2 = db ∧
    (db.Update id r2).2.Get id = .ok r1 := by
  have h : db.Update id r2 = (some .ErrSessionsMismatch, db) := by
    unfold Store.Update
    rw [hget]
    simp only []
    rw [if_pos hsub]
  rw [h]
  exact ⟨rfl, rfl, hget⟩

theorem Update_subject_mismatch_witness :
    ((Store.mk .postgresql (some headerCipher)
        [⟨"id-1", "alice", "a5at", "a5rt", "a5it", 1700000000⟩]).Update "id-1"
        ⟨"mallory", "at2", "rt2", "it2", ⟨1700000600, 0⟩⟩).1 = some .ErrSessionsMismatch ∧
    ((Store.mk .sqlite none
        [⟨"id-1", "alice", "at", "rt", "it", 1700000000⟩]).Update "id-1"
        ⟨"mallory", "at2", "rt2", "it2", ⟨1700000600, 0⟩⟩).2.Get "id-1"
      = .ok ⟨"alice", "at", "rt", "it", ⟨1700000000, 0⟩⟩ :=
  ⟨(Update_subject_mismatch
      (Store.mk .postgresql (some headerCipher)
        [⟨"id-1", "alice", "a5at", "a5rt", "a5it", 1700000000⟩]) "id-1"
      ⟨"alice", "at", "rt", "it", ⟨1700000000, 0⟩⟩
      ⟨"mallory", "at2", "rt2", "it2", ⟨1700000600, 0⟩⟩ (by decide) (by decide)).1,
   (Update_subject_mismatch
      (Store.mk .sqlite none [⟨"id-1", "alice", "at", "rt", "it", 1700000000⟩]) "id-1"
      ⟨"alice", "at", "rt", "it", ⟨1700000000, 0⟩⟩
      ⟨"mallory", "at2", "rt2", "it2", ⟨1700000600, 0⟩⟩ (by decide) (by decide)).2.2⟩

/-- C6 (counterexample): on an empty SQLite store without cipher, `Add` of a
record with four non-empty strings whose `ExpiresAt` is one nanosecond after
the epoch returns an identifier, and `Get` of it returns a record whose
`ExpiresAt` is the epoch itself: not the record that was added. -/
theorem Get_after_Add_loses_nanoseconds :
    ((Store.mk .sqlite none []).Add "id-1" ⟨"user", "at", "rt", "it", ⟨0, 1⟩⟩).1 = .ok "id-1" ∧
    ((Store.mk .sqlite none []).Add "id-1" ⟨"user", "at", "rt", "it", ⟨0, 1⟩⟩).2.Get "id-1"
      = .ok ⟨"user", "at", "rt", "it", ⟨0, 0⟩⟩ ∧
    ((Store.mk .sqlite none []).Add "id-1" ⟨"user", "at", "rt", "it", ⟨0, 1⟩⟩).2.Get "id-1"
      ≠ .ok ⟨"user", "at", "rt", "it", ⟨0, 1⟩⟩ := by
  decide

/-- C6 (amended): for either engine, with no cipher or with a cipher whose
decryption inverts its encryption, when `Add(r)` returns the identifier `id2`
the following `Get(id2)` returns `r` with `ExpiresAt` cut to whole seconds,
`time.Unix(r.ExpiresAt.Unix(), 0)`; it is `r` itself, in all five fields,
exactly when `r.ExpiresAt` has no fraction of a second. -/
theorem Get_after_Add (db : Store) (id id2 : String) (r : SessionData)
    (hinv : ∀ c, db.cipher = some c → ∀ x y,
      c.EncryptToHexString x = .ok y → c.DecryptFromHexString y = .ok x)
    (hadd : (db.Add id r).1 = .ok id2) :
    (db.Add id r).2.Get id2 = .ok { r with ExpiresAt := Time.ofUnix r.ExpiresAt.Unix } ∧
    ((db.Add id r).2.Get id2 = .ok r ↔ r.ExpiresAt.nsec = 0) := by
  have main : (db.Add id r).2.Get id2
      = .ok { r with ExpiresAt := Time.ofUnix r.ExpiresAt.Unix } := by
    unfold Store.Add at hadd ⊢
    cases henc : encryptArgs db.cipher r with
    | error err => simp [henc] at hadd
    | ok enc =>
      cases hins : execInsert db.engine db.table (Store.rowOf id enc) with
      | error err => simp [henc, hins] at hadd
      | ok t =>
        simp only [henc, hins] at hadd ⊢
        cases hadd
        obtain ⟨ht, hfresh⟩ := execInsert_ok _ _ _ _ hins
        have hfind := find?_append_fresh db.table (Store.rowOf id enc) hfresh
        have hsel : queryRowSelect db.engine t id = .ok (Store.rowOf id enc) := by
          unfold queryRowSelect
          rw [ht]
          have hid : (Store.rowOf id enc).session_id = id := rfl
          rw [hid] at hfind
          rw [hfind]
        have hexp : enc.ExpiresAt = r.ExpiresAt := by
          cases hc : db.cipher with
          | none =>
            rw [hc] at henc
            simp only [encryptArgs] at henc
            cases henc
            rfl
          | some c =>
            rw [hc] at henc
            simp only [encryptArgs] at henc
            split at henc
            · cases henc
            · split at henc
              · cases henc
              · split at henc
                · cases henc
                · cases henc
                  rfl
        unfold Store.Get
        simp only [hsel]
        have := decryptArgs_encryptArgs db.cipher r enc (Time.ofUnix r.ExpiresAt.Unix) hinv henc
        rw [← this, ← hexp]
        rfl
  refine ⟨main, ?_⟩
  rw [main]
  constructor
  · intro h
    have h2 : ({ r with ExpiresAt := Time.ofUnix r.ExpiresAt.Unix } : SessionData) = r :=
      Except.ok.inj h
    have h3 := congrArg SessionData.ExpiresAt h2
    have h4 := congrArg Time.nsec h3
    exact h4.symm
  · intro h
    cases r with
    | mk sub a rt i e =>
      cases e with
      | mk sec nsec =>
        simp only at h
        subst h
        rfl

theorem Get_after_Add_witness :
    (((Store.mk .postgresql (some headerCipher) []).Add "id-1"
        ⟨"user", "at", "rt", "it", ⟨1700000000, 0⟩⟩).2.Get "id-1"
      = .ok ⟨"user", "at", "rt", "it", ⟨1700000000, 0⟩⟩ ↔
      (⟨1700000000, 0⟩ : Time).nsec = 0) :=
  (Get_after_Add (Store.mk .postgresql (some headerCipher) []) "id-1" "id-1"
    ⟨"user", "at", "rt", "it", ⟨1700000000, 0⟩⟩
    (by
      intro c hc x y hxy
      cases hc
      cases hxy
      rfl)
    (by decide)).2

/-- C7 (code defect): on a store with a cipher (one whose decryption inverts
its encryption and whose ciphertexts are never empty), `Add` of a record with
an empty `AccessToken` returns an identifier and persists the row, on either
engine: the `CHECK(access_token != '')` constraint sees the ciphertext. -/
theorem Add_with_cipher_accepts_empty_token :
    (Store.mk .sqlite (some headerCipher) []).Add "id-1" ⟨"user", "", "rt", "it", ⟨0, 0⟩⟩
      = (.ok "id-1",
         Store.mk .sqlite (some headerCipher) [⟨"id-1", "user", "a5", "a5rt", "a5it", 0⟩]) ∧
    (Store.mk .postgresql (some headerCipher) []).Add "id-1" ⟨"user", "", "rt", "it", ⟨0, 0⟩⟩
      = (.ok "id-1",
         Store.mk .postgresql (some headerCipher) [⟨"id-1", "user", "a5", "a5rt", "a5it", 0⟩]) ∧
    ((Store.mk .sqlite (some headerCipher) []).Add "id-1"
        ⟨"user", "", "rt", "it", ⟨0, 0⟩⟩).2.Get "id-1"
      = .ok ⟨"user", "", "rt", "it", ⟨0, 0⟩⟩ ∧
    ((Store.mk .sqlite none []).Add "id-1" ⟨"user", "", "rt", "it", ⟨0, 0⟩⟩).1
      = .error (.foreign "CHECK constraint failed") := by
  refine ⟨rfl, rfl, by decide, by decide⟩

/-- C10 (counterexample): on a PostgreSQL store that holds a record expired at
second 1700000000, `Purge` with the clock at second 2147483648 returns an
error and removes nothing. -/
theorem Purge_fails_past_32_bit_on_postgresql :
    ((Store.mk .postgresql none aliceTable).Purge ⟨2147483648, 0⟩).1
      = some (.foreign "value out of range for the column type") ∧
    ((Store.mk .postgresql none aliceTable).Purge ⟨2147483648, 0⟩).2.table = aliceTable ∧
    (∀ r ∈ aliceTable, r.expires_at < (⟨2147483648, 0⟩ : Time).Unix) ∧
    aliceTable ≠ [] := by
  decide

/-- C10 (amended): for every store and every clock reading whose epoch second
the engine's `integer` type takes (every reading on SQLite, up to second
2147483647 on PostgreSQL), `Purge` returns no error and the table it leaves is
the old table without the rows whose `expires_at` is below `now` (the clock in
epoch seconds, as the column is): those rows are removed, every other row
stays, unchanged and in place; a second `Purge` at the same clock changes
nothing; and of three rows expiring before `now` and two after it, exactly the
two later ones remain. -/
theorem Purge_removes_exactly_expired (db : Store) (clock : Time)
    (hfit : db.engine.takesInteger clock.Unix = true) :
    (db.Purge clock).1 = none ∧
    (db.Purge clock).2.table
      = db.table.filter (fun r => !decide (r.expires_at < clock.Unix)) ∧
    (∀ r, r ∈ (db.Purge clock).2.table ↔ r ∈ db.table ∧ ¬ r.expires_at < clock.Unix) ∧
    (db.Purge clock).2.engine = db.engine ∧
    (db.Purge clock).2.cipher = db.cipher ∧
    (db.Purge clock).2.Purge clock = (none, (db.Purge clock).2) ∧
    (∀ p1 p2 p3 f1 f2 : Row,
      p1.expires_at < clock.Unix → p2.expires_at < clock.Unix → p3.expires_at < clock.Unix →
      clock.Unix < f1.expires_at → clock.Unix < f2.expires_at →
      db.table = [p1, f1, p2, p3, f2] → (db.Purge clock).2.table = [f1, f2]) := by
  have hp : db.Purge clock
      = (none, Store.mk db.engine db.cipher (execPurge db.table clock.Unix)) := by
    unfold Store.Purge
    simp [hfit]
  have hp2 : (Store.mk db.engine db.cipher (execPurge db.table clock.Unix)).Purge clock
      = (none, Store.mk db.engine db.cipher (execPurge db.table clock.Unix)) := by
    unfold Store.Purge
    simp [hfit, execPurge, List.filter_filter]
  rw [hp]
  refine ⟨rfl, rfl, ?_, rfl, rfl, hp2, ?_⟩
  · intro r
    simp [execPurge]
  · intro p1 p2 p3 f1 f2 h1 h2 h3 h4 h5 ht
    have g1 : ¬ f1.expires_at < clock.Unix := by omega
    have g2 : ¬ f2.expires_at < clock.Unix := by omega
    simp [execPurge, ht, List.filter_cons, h1, h2, h3, g1, g2]

theorem Purge_removes_exactly_expired_witness :
    ((Store.mk .postgresql none
      [⟨"e1", "exp_01", "at_9999", "rt_9999", "it_9999", 1699999700⟩,
       ⟨"f1", "user_01", "at_1", "rt_1", "it_1", 1700000300⟩,
       ⟨"e2", "exp_02", "at_9999", "rt_9999", "it_9999", 1699999700⟩,
       ⟨"e3", "exp_03", "at_9999", "rt_9999", "it_9999", 1699999700⟩,
       ⟨"f2", "user_02", "at_2", "rt_2", "it_2", 1700000300⟩]).Purge
        ⟨1700000000, 0⟩).2.table
      = [⟨"f1", "user_01", "at_1", "rt_1", "it_1", 1700000300⟩,
         ⟨"f2", "user_02", "at_2", "rt_2", "it_2", 1700000300⟩] :=
  (Purge_removes_exactly_expired
    (Store.mk .postgresql none
      [⟨"e1", "exp_01", "at_9999", "rt_9999", "it_9999", 1699999700⟩,
       ⟨"f1", "user_01", "at_1", "rt_1", "it_1", 1700000300⟩,
       ⟨"e2", "exp_02", "at_9999", "rt_9999", "it_9999", 1699999700⟩,
       ⟨"e3", "exp_03", "at_9999", "rt_9999", "it_9999", 1699999700⟩,
       ⟨"f2", "user_02", "at_2", "rt_2", "it_2", 1700000300⟩])
    ⟨1700000000, 0⟩ (by decide)).2.2.2.2.2.2 _ _ _ _ _
    (by decide) (by decide) (by decide) (by decide) (by decide) rfl

/-! ## Theorems: expiry, refresh and the cookie's value map -/

/-- C11 (code defect): a record saved by `Session.Save` carries the access-token
expiry as its `expires_at`; one second after that expiry (the handle's session
timeout is 30 minutes) the record is access-token-expired, `Purge` removes it,
`Get` reports no row, and the middleware answers 401 for its cookie without
reaching the refresh (the only store call is the `Get`). -/
theorem Purge_removes_record_with_expired_access_token :
    ((handleWith (oidcOf aliceToken) (fun _ => none)).Save (freshWorld .sqlite) aliceToken).1
      = none ∧
    ((handleWith (oidcOf aliceToken) (fun _ => none)).Save
        (freshWorld .sqlite) aliceToken).2.1.data.ExpiresAt = aliceToken.Expiry ∧
    ((handleWith (oidcOf aliceToken) (fun _ => none)).Save
        (freshWorld .sqlite) aliceToken).2.1.data.IsExpired ⟨1700000001, 0⟩ = true ∧
    (((handleWith (oidcOf aliceToken) (fun _ => none)).Save
        (freshWorld .sqlite) aliceToken).2.2.db.db.Purge ⟨1700000001, 0⟩).2.table = [] ∧
    (((handleWith (oidcOf aliceToken) (fun _ => none)).Save
        (freshWorld .sqlite) aliceToken).2.2.db.db.Purge ⟨1700000001, 0⟩).2.Get
        "00000000-0000-4000-8000-000000000000" = .error .sqlErrNoRows ∧
    (managerOf.AuthenticationMiddleware (oidcOf aliceToken)
        (requestOf (valuesWithId "id-1") "" "") ⟨1700000001, 0⟩
        (worldOf .sqlite ((Store.mk .sqlite none aliceTable).Purge
          ⟨1700000001, 0⟩).2.table)).status = [401] ∧
    (managerOf.AuthenticationMiddleware (oidcOf aliceToken)
        (requestOf (valuesWithId "id-1") "" "") ⟨1700000001, 0⟩
        (worldOf .sqlite ((Store.mk .sqlite none aliceTable).Purge
          ⟨1700000001, 0⟩).2.table)).world.calls = [StoreCall.Get "id-1"] := by
  decide

/-- C12 (counterexample): the cached record of subject `"alice"` is
access-token-expired, the refresh succeeds with a token of subject `"mallory"`,
`Session.Update` fails with `ErrSessionsMismatch`, and the middleware answers
500, not 401. -/
theorem middleware_subject_mismatch_answers_500 :
    ((managerOf.GetSession (requestOf (valuesWithId "id-1") "" "") (oidcOf malloryToken)
        (worldOf .sqlite aliceTable)).1.map
      (fun s => (s.data.IsExpired ⟨1700000100, 0⟩,
        (s.Update (worldOf .sqlite aliceTable) malloryToken).1)))
      = some (true, some .ErrSessionsMismatch) ∧
    (managerOf.AuthenticationMiddleware (oidcOf malloryToken)
        (requestOf (valuesWithId "id-1") "" "") ⟨1700000100, 0⟩
        (worldOf .sqlite aliceTable)).status = [500] ∧
    (managerOf.AuthenticationMiddleware (oidcOf malloryToken)
        (requestOf (valuesWithId "id-1") "" "") ⟨1700000100, 0⟩
        (worldOf .sqlite aliceTable)).status ≠ [401] := by
  decide

/-- C12 (amended): when `GetSession` succeeds, the cached record is
access-token-expired, the refresh succeeds and `Session.Update` fails, with
`ErrSessionsMismatch` or any other error, the middleware answers 500 Internal
Server Error and does not invoke the wrapped handler. -/
theorem middleware_update_failure_answers_500 {σ : Type} (m : Manager σ)
    (config : OidcConfig) (r : Request) (now : Time) (w w1 : World σ) (s : Session σ)
    (token : Token) (err : GoError)
    (hget : m.GetSession r config w = (some s, none, w1))
    (hexp : s.data.IsExpired now = true)
    (href : config.Refresh s.data.RefreshToken = .ok token)
    (hupd : (s.Update w1 token).1 = some err) :
    (m.AuthenticationMiddleware config r now w).status = [500] ∧
    (m.AuthenticationMiddleware config r now w).next = [] ∧
    (m.AuthenticationMiddleware config r now w).panicked = false ∧
    (m.AuthenticationMiddleware config r now w).world = (s.Update w1 token).2.2 := by
  unfold Manager.AuthenticationMiddleware
  rw [hget]
  simp only [authenticated, hexp, href, if_true]
  rcases hu : s.Update w1 token with ⟨e, s2, w2⟩
  rw [hu] at hupd
  simp only at hupd
  subst hupd
  simp

theorem middleware_update_failure_answers_500_witness :
    (managerOf.AuthenticationMiddleware (oidcOf malloryToken)
        (requestOf (valuesWithId "id-1") "" "") ⟨1700000100, 0⟩
        (worldOf .sqlite aliceTable)).status = [500] ∧
    (managerOf.AuthenticationMiddleware (oidcOf malloryToken)
        (requestOf (valuesWithId "id-1") "" "") ⟨1700000100, 0⟩
        (worldOf .sqlite aliceTable)).next = [] :=
  have h := middleware_update_failure_answers_500 managerOf (oidcOf malloryToken)
    (requestOf (valuesWithId "id-1") "" "") ⟨1700000100, 0⟩ (worldOf .sqlite aliceTable)
    { db := backendOf .sqlite aliceTable, calls := [StoreCall.Get "id-1"] }
    { sessionImpl := Backend.impl,
      session := { Values := valuesWithId "id-1", MaxAge := 0, encode := fun _ _ => none },
      oidcConfig := oidcOf malloryToken,
      data := ⟨"alice", "at-0", "rt-at-0", "idt-alice", ⟨1700000000, 0⟩⟩,
      timeout := 1800000000000 }
    malloryToken .ErrSessionsMismatch rfl (by decide) rfl (by decide)
  ⟨h.1, h.2.1⟩

/-- C13: when the identity token verifies and `Add` returns `id`, `Save` leaves
the value map with `id` under the session key and nothing under the state key,
whatever the map held before, and caches the record {subject of the identity
token, `token.AccessToken`, `token.RefreshToken`, raw identity token,
`token.Expiry`}; when verification fails, or `Add` fails, `Save` returns that
error and the cookie session (value map and `MaxAge`) is as before. -/
theorem Save_outcomes {σ : Type} (s : Session σ) (w : World σ) (token : Token) :
    (∀ err, s.oidcConfig.GetIdToken token = .error err →
      (s.Save w token).1 = some err ∧ (s.Save w token).2.1.session = s.session ∧
      (s.Save w token).2.2 = w) ∧
    (∀ idToken, s.oidcConfig.GetIdToken token = .ok idToken →
      (∀ err, (s.sessionImpl.Add w.db
          ⟨idToken.Subject, token.AccessToken, token.RefreshToken, idToken.RawToken,
            token.Expiry⟩).1 = .error err →
        (s.Save w token).1 = some err ∧ (s.Save w token).2.1.session = s.session) ∧
      (∀ id, (s.sessionImpl.Add w.db
          ⟨idToken.Subject, token.AccessToken, token.RefreshToken, idToken.RawToken,
            token.Expiry⟩).1 = .ok id →
        (s.Save w token).2.1.session.Values .sessionIdName = some (.string id) ∧
        (s.Save w token).2.1.session.Values .sessionStateName = none ∧
        (s.Save w token).2.1.data
          = ⟨idToken.Subject, token.AccessToken, token.RefreshToken, idToken.RawToken,
              token.Expiry⟩)) := by
  refine ⟨?_, ?_⟩
  · intro err h
    simp [Session.Save, Session.newData, h]
  · intro idToken h
    refine ⟨?_, ?_⟩
    · intro err ha
      simp [Session.Save, Session.newData, h, ha]
    · intro id ha
      simp [Session.Save, Session.newData, Session.saveSession, h, ha]

theorem Save_outcomes_witness :
    ((handleWith (oidcOf aliceToken) (valuesWithState "nonce")).Save
        (worldOf .postgresql aliceTable) aliceToken).2.1.session.Values .sessionIdName
      = some (.string "00000000-0000-4000-8000-000000000000") ∧
    ((handleWith (oidcOf aliceToken) (valuesWithState "nonce")).Save
        (worldOf .postgresql aliceTable) aliceToken).2.1.session.Values .sessionStateName
      = none ∧
    ((handleWith (oidcOf aliceToken) (valuesWithState "nonce")).Save
        (worldOf .postgresql aliceTable) aliceToken).2.1.data
      = ⟨"alice", "at-1", "rt-at-1", "idt-alice", ⟨1700000000, 0⟩⟩ :=
  ((Save_outcomes (handleWith (oidcOf aliceToken) (valuesWithState "nonce"))
      (worldOf .postgresql aliceTable) aliceToken).2
    ⟨"alice", "idt-alice"⟩ (by decide)).2
    "00000000-0000-4000-8000-000000000000" (by decide)

/-- C14 (code defect): `saveState` on a value map that holds a session
identifier leaves the map with both the identifier and the nonce; the login
handler does so for a request that carries an authenticated cookie.  After
`saveSession` the map holds the identifier and no nonce, for every starting
map. -/
theorem saveState_keeps_session_identifier :
    ((handleOf (valuesWithId "id-1")).saveState "nonce" 300).2.session.Values
        .sessionIdName = some (.string "id-1") ∧
    ((handleOf (valuesWithId "id-1")).saveState "nonce" 300).2.session.Values
        .sessionStateName = some (.string "nonce") ∧
    ((managerOf.LoginHandlerOidc (oidcOf aliceToken) (requestOf (valuesWithId "id-1") "" "")
        "nonce" (worldOf .sqlite aliceTable)).session.map
      (fun s => (s.session.Values .sessionIdName, s.session.Values .sessionStateName)))
      = some (some (.string "id-1"), some (.string "nonce")) ∧
    (∀ (σ : Type) (s : Session σ) (id : String),
      (s.saveSession id).2.session.Values .sessionIdName = some (.string id) ∧
      (s.saveSession id).2.session.Values .sessionStateName = none) := by
  refine ⟨by decide, by decide, by decide, ?_⟩
  intro σ s id
  simp [Session.saveSession]

/-- C16: for every handle and nonce `n`, the empty string included, `getState`
after `saveState(n)` returns `n`; on a handle whose value map holds no string
under the state key `getState` returns the empty string (it has no error
result). -/
theorem getState_after_saveState {σ : Type} (s : Session σ) (n : String) (age : Int) :
    (s.saveState n age).2.getState = n ∧
    (s.session.Values.string? .sessionStateName = none → s.getState = "") := by
  refine ⟨?_, ?_⟩
  · simp [Session.saveState, Session.getState, ValueMap.string?]
  · intro h
    simp [Session.getState, h]

theorem getState_after_saveState_witness :
    ((handleOf (valuesWithId "id-1")).saveState "" 300).2.getState = "" ∧
    (handleOf (valuesWithId "id-1")).getState = "" :=
  ⟨(getState_after_saveState (handleOf (valuesWithId "id-1")) "" 300).1,
   (getState_after_saveState (handleOf (valuesWithId "id-1")) "" 300).2 (by decide)⟩

/-- C18: `Delete` on a handle whose value map holds no string identifier
returns `ErrSessionInvalid` and leaves the handle (value map, `MaxAge`) and the
world (store state, call trace) as they were; when `Store.Delete` fails,
`Delete` returns that error and the handle, `MaxAge` included, is unchanged. -/
theorem Delete_failures {σ : Type} (s : Session σ) (w : World σ) :
    (s.session.Values.string? .sessionIdName = none →
      s.Delete w = (some .ErrSessionInvalid, s, w)) ∧
    (∀ id err, s.session.Values.string? .sessionIdName = some id →
      (s.sessionImpl.Delete w.db id).1 = some err →
      (s.Delete w).1 = some err ∧ (s.Delete w).2.1 = s ∧
      (s.Delete w).2.1.session.MaxAge = s.session.MaxAge ∧
      (s.Delete w).2.2.calls = w.calls ++ [StoreCall.Delete id]) := by
  refine ⟨?_, ?_⟩
  · intro h
    simp [Session.Delete, h]
  · intro id err h hd
    simp [Session.Delete, h, hd]

theorem Delete_failures_witness :
    (({ sessionImpl := downImpl,
        session := { Values := valuesWithId "id-1", MaxAge := 1800, encode := fun _ _ => none },
        oidcConfig := oidcDown, data := SessionData.zero, timeout := 1800000000000 } :
        Session Unit).Delete { db := (), calls := [] }).1
      = some (.foreign "connection refused") ∧
    (({ sessionImpl := downImpl,
        session := { Values := valuesWithId "id-1", MaxAge := 1800, encode := fun _ _ => none },
        oidcConfig := oidcDown, data := SessionData.zero, timeout := 1800000000000 } :
        Session Unit).Delete { db := (), calls := [] }).2.1.session.MaxAge = 1800 ∧
    ((handleOf (valuesWithState "nonce")).Delete (worldOf .sqlite aliceTable)).1
      = some .ErrSessionInvalid :=
  have h := (Delete_failures
    ({ sessionImpl := downImpl,
       session := { Values := valuesWithId "id-1", MaxAge := 1800, encode := fun _ _ => none },
       oidcConfig := oidcDown, data := SessionData.zero, timeout := 1800000000000 } :
      Session Unit) { db := (), calls := [] }).2 "id-1" (.foreign "connection refused")
    (by decide) (by decide)
  ⟨h.1, h.2.2.1,
   by rw [(Delete_failures (handleOf (valuesWithState "nonce"))
     (worldOf .sqlite aliceTable)).1 (by decide)]⟩

/-- C15 (code defect): a callback request whose cookie holds the identifier of
a stored session and no nonce, and which has no `state` parameter, passes the
state check (`getState` returns the empty string, equal to the absent
parameter): the code is exchanged and a session for the subject of the
exchanged token is saved. -/
theorem callback_without_nonce_exchanges_code :
    valuesWithId "id-1" .sessionStateName = none ∧
    (requestOf (valuesWithId "id-1") "" "attacker-code").state = "" ∧
    (managerOf.CallbackHandlerOidc (oidcOf malloryToken) "/home"
        (requestOf (valuesWithId "id-1") "" "attacker-code")
        (worldOf .sqlite aliceTable)).exchanged = ["attacker-code"] ∧
    (managerOf.CallbackHandlerOidc (oidcOf malloryToken) "/home"
        (requestOf (valuesWithId "id-1") "" "attacker-code")
        (worldOf .sqlite aliceTable)).status = [302] ∧
    (managerOf.CallbackHandlerOidc (oidcOf malloryToken) "/home"
        (requestOf (valuesWithId "id-1") "" "attacker-code")
        (worldOf .sqlite aliceTable)).location = some (.uri "/home") ∧
    (managerOf.CallbackHandlerOidc (oidcOf malloryToken) "/home"
        (requestOf (valuesWithId "id-1") "" "attacker-code")
        (worldOf .sqlite aliceTable)).world.db.db.table
      = aliceTable ++ [⟨"00000000-0000-4000-8000-000000000000", "mallory", "at-2", "rt-at-2",
          "idt-mallory", 1700000900⟩] ∧
    ((managerOf.CallbackHandlerOidc (oidcOf malloryToken) "/home"
        (requestOf (valuesWithId "id-1") "" "attacker-code")
        (worldOf .sqlite aliceTable)).session.map
      (fun s => s.session.Values .sessionIdName))
      = some (some (.string "00000000-0000-4000-8000-000000000000")) := by
  decide

/-- C19 (code defect): after a successful `Save` and a successful `Delete` on the
same handle, `dataFromDB` fails with `ErrSessionNotFound` on the SQLite engine,
and with an error wrapping `ErrCannotRetrieveSessionData` on the PostgreSQL
engine. -/
theorem dataFromDB_after_Delete_by_engine :
    saveDeleteLoad .sqlite = (none, none, some .ErrSessionNotFound) ∧
    saveDeleteLoad .postgresql
      = (none, none, some (.wrap .ErrCannotRetrieveSessionData
          "cannot retrieve session data: no rows in result set")) := by
  decide

/-! ## Helper lemmas: timeouts of a manager and its handles -/

theorem NewManager_ok_timeouts {σ : Type} (c : Configuration) (impl : SessionImpl σ)
    (m : Manager σ) (h : NewManager c (some impl) = .ok m) :
    m.loginTimeout = Int.tdiv c.LoginTimeout 1000000000 ∧
    m.sessionTimeout = c.SessionTimeout := by
  unfold NewManager at h
  cases hk : c.keyPairsAsSlice with
  | error err => simp [hk] at h
  | ok kp =>
    simp only [hk] at h
    cases h
    exact ⟨rfl, rfl⟩

theorem dataFromDB_timeout {σ : Type} (s : Session σ) (w : World σ) :
    (s.dataFromDB w).2.1.timeout = s.timeout := by
  unfold Session.dataFromDB
  cases s.session.Values.string? .sessionIdName with
  | none => rfl
  | some id =>
    simp only
    cases (s.sessionImpl.Get w.db id).1 with
    | ok data => rfl
    | error err => cases err <;> rfl

theorem GetSession_timeout {σ : Type} (m : Manager σ) (r : Request) (config : OidcConfig)
    (w w1 : World σ) (s : Session σ) (h : m.GetSession r config w = (some s, none, w1)) :
    s.timeout = m.sessionTimeout := by
  unfold Manager.GetSession at h
  cases hc : r.cookie with
  | error err => simp [hc] at h
  | ok values =>
    simp only [hc] at h
    split at h
    · simp only [Prod.mk.injEq, Option.some.injEq] at h
      rw [← h.1]
    · split at h
      · simp at h
      · rename_i s2 w2 hd
        simp only [Prod.mk.injEq, Option.some.injEq] at h
        rw [← h.1]
        have := dataFromDB_timeout
          ({ sessionImpl := m.sessionImpl,
             session := { Values := values, MaxAge := m.store.MaxAge, encode := r.encode },
             oidcConfig := config, data := SessionData.zero,
             timeout := m.sessionTimeout } : Session σ) w
        rw [hd] at this
        exact this

theorem log2Fuel_eq_log2 (fuel n : Nat) (h : n ≤ fuel) : log2Fuel fuel n = Nat.log2 n := by
  induction fuel generalizing n with
  | zero =>
    have : n = 0 := by omega
    subst this
    simp [log2Fuel, Nat.log2]
  | succ f ih =>
    unfold log2Fuel
    rw [Nat.log2]
    by_cases h2 : n < 2
    · have h3 : ¬ 2 ≤ n := by omega
      simp only [h2, h3, if_true, if_false]
    · have h3 : 2 ≤ n := by omega
      simp only [h2, h3, if_true, if_false]
      rw [ih (n / 2) (by omega)]

theorem floorLog2_eq_log2 (n : Nat) : floorLog2 n = Nat.log2 n :=
  log2Fuel_eq_log2 n n (le_refl n)

theorem truncFloat64_roundAt (S : Nat) (e : Int) (he : e ≤ 0) :
    truncFloat64 (roundAt S 1 e) = S := by
  unfold roundAt scaleBy truncFloat64
  by_cases h0 : 0 ≤ e
  · have : e = 0 := le_antisymm he h0
    subst this
    simp [Nat.mod_one]
  · simp only [h0, if_false, Nat.div_one, Nat.mod_one]
    simp

theorem float64Exponent_nonpos (S : Nat) (hS : S ≠ 0) (h : S < 2 ^ 53) :
    float64Exponent S 1 ≤ 0 := by
  have hl : floorLog2 S < 53 := by
    rw [floorLog2_eq_log2]
    exact (Nat.log2_lt hS).mpr h
  have h1 : floorLog2 1 = 0 := by decide
  unfold float64Exponent
  simp only [h1]
  split <;> omega

theorem truncFloat64_roundFloat64 (S : Nat) (h : S < 2 ^ 53) :
    truncFloat64 (roundFloat64 S 1) = S := by
  unfold roundFloat64
  by_cases hS : S = 0
  · subst hS; decide
  · simp only [hS, if_false]
    exact truncFloat64_roundAt S _ (float64Exponent_nonpos S hS h)

theorem durationSeconds_whole (k : Int) (hk : k.natAbs < 2 ^ 53) :
    durationSeconds (k * 1000000000) = k := by
  have ha : (k * 1000000000).natAbs = k.natAbs * 1000000000 := by
    rw [Int.natAbs_mul]; rfl
  have hz : roundFloat64 0 1000000000 = (0, 0) := by decide
  unfold durationSeconds
  simp only [ha, Nat.mul_div_cancel _ (by decide : 0 < 1000000000), Nat.mul_mod_left, hz]
  simp only [le_refl, if_true, Int.toNat_zero, pow_zero, mul_one, add_zero]
  rw [truncFloat64_roundFloat64 _ hk]
  split <;> omega

theorem Save_ok_MaxAge {σ : Type} (s : Session σ) (w : World σ) (token : Token)
    (h : (s.Save w token).1 = none) :
    (s.Save w token).2.1.session.MaxAge = durationSeconds s.timeout ∧
    (s.Save w token).2.1.session.Save = none := by
  unfold Session.Save at h ⊢
  cases hn : s.newData token with
  | error err => simp [hn] at h
  | ok data =>
    simp only [hn] at h ⊢
    cases ha : (s.sessionImpl.Add w.db data).1 with
    | error err => simp [ha] at h
    | ok id =>
      simp only [ha] at h ⊢
      exact ⟨rfl, h⟩

theorem Update_ok_MaxAge {σ : Type} (s : Session σ) (w : World σ) (token : Token)
    (h : (s.Update w token).1 = none) :
    (s.Update w token).2.1.session.MaxAge = durationSeconds s.timeout ∧
    (s.Update w token).2.1.session.Save = none := by
  unfold Session.Update at h ⊢
  cases hn : s.newData token with
  | error err => simp [hn] at h
  | ok data =>
    simp only [hn] at h ⊢
    cases hi : s.session.Values.string? .sessionIdName with
    | none => simp [hi] at h
    | some id =>
      simp only [hi] at h ⊢
      cases hu : (s.sessionImpl.Update w.db id data).1 with
      | some err => simp [hu] at h
      | none =>
        simp only [hu] at h ⊢
        exact ⟨rfl, h⟩

/-! ## Theorems: cookie age -/

/-- C17 (counterexample): with a session timeout of 16777216999999999 ns, a
successful `Save` on the handle of `NewSession` leaves `MaxAge` at 16777217,
which is not the timeout in whole seconds (16777216) and is more than the
timeout; with the 30 minutes of `main` it leaves 1800. -/
theorem Save_MaxAge_exceeds_fractional_timeout :
    savedMaxAge fractionalConfiguration = .ok 16777217 ∧
    Int.tdiv fractionalConfiguration.SessionTimeout 1000000000 = 16777216 ∧
    fractionalConfiguration.SessionTimeout < 16777217 * 1000000000 ∧
    savedMaxAge mainConfiguration = .ok 1800 := by
  decide

/-- C17 (amended): `saveState` and `saveSession` write the cookie with the
`MaxAge` they set, the given age and `int(timeout.Seconds())`; for a manager
built by `NewManager` from configuration `c`, the login handler whose cookie
write succeeds answers 302 with `MaxAge` equal to `c.LoginTimeout` in whole
seconds; a successful `Save` or `Update` on a handle made by `NewSession` or
`GetSession` has written the cookie with `MaxAge` equal to
`int(c.SessionTimeout.Seconds())`, which is `c.SessionTimeout` in whole
seconds when that timeout is a whole number of seconds; `Delete` writes the
cookie with `MaxAge` -1, a negative value. -/
theorem MaxAge_by_written_state {σ : Type} (c : Configuration) (impl : SessionImpl σ)
    (m : Manager σ) (hm : NewManager c (some impl) = .ok m) :
    (∀ (s : Session σ) state age,
      (s.saveState state age).2.session.MaxAge = age ∧
      (s.saveState state age).1 = s.session.encode
        (Function.update s.session.Values .sessionStateName (some (.string state))) age) ∧
    (∀ config r state w values, r.cookie = .ok values →
      r.encode (Function.update values .sessionStateName (some (.string state)))
        (Int.tdiv c.LoginTimeout 1000000000) = none →
      (m.LoginHandlerOidc config r state w).status = [302] ∧
      ∃ s, (m.LoginHandlerOidc config r state w).session = some s ∧
        s.session.MaxAge = Int.tdiv c.LoginTimeout 1000000000) ∧
    (∀ config r state w s, (m.LoginHandlerOidc config r state w).session = some s →
      s.session.MaxAge = Int.tdiv c.LoginTimeout 1000000000) ∧
    (∀ (s : Session σ) id,
      (s.saveSession id).2.session.MaxAge = durationSeconds s.timeout ∧
      (s.saveSession id).1 = s.session.encode
        (Function.update (Function.update s.session.Values .sessionStateName none)
          .sessionIdName (some (.string id))) (durationSeconds s.timeout)) ∧
    (∀ config r s, m.NewSession r config = .ok s →
      s.timeout = c.SessionTimeout ∧
      (∀ w token, (s.Save w token).1 = none →
        (s.Save w token).2.1.session.MaxAge = durationSeconds c.SessionTimeout ∧
        (s.Save w token).2.1.session.Save = none)) ∧
    (∀ config r w s w1, m.GetSession r config w = (some s, none, w1) →
      s.timeout = c.SessionTimeout ∧
      (∀ w2 token, (s.Update w2 token).1 = none →
        (s.Update w2 token).2.1.session.MaxAge = durationSeconds c.SessionTimeout ∧
        (s.Update w2 token).2.1.session.Save = none)) ∧
    (∀ k : Int, c.SessionTimeout = k * 1000000000 →
      -9223372036854775808 ≤ c.SessionTimeout → c.SessionTimeout ≤ 9223372036854775807 →
      durationSeconds c.SessionTimeout = k ∧
      durationSeconds c.SessionTimeout = Int.tdiv c.SessionTimeout 1000000000) ∧
    (∀ (s : Session σ) w id, s.session.Values.string? .sessionIdName = some id →
      (s.sessionImpl.Delete w.db id).1 = none →
      (s.Delete w).2.1.session.MaxAge = -1 ∧
      (s.Delete w).1 = s.session.encode s.session.Values (-1)) ∧
    (∀ (s : Session σ) w, (s.Delete w).1 = none →
      (s.Delete w).2.1.session.MaxAge = -1 ∧ (s.Delete w).2.1.session.MaxAge < 0) := by
  obtain ⟨hl, hs⟩ := NewManager_ok_timeouts c impl m hm
  refine ⟨?_, ?_, ?_, ?_, ?_, ?_, ?_, ?_, ?_⟩
  · intro s state age
    exact ⟨rfl, rfl⟩
  · intro config r state w values hc he
    unfold Manager.LoginHandlerOidc Manager.NewSession
    simp only [hc]
    have hsv : (Session.saveState
        ({ sessionImpl := m.sessionImpl,
           session := { Values := values, MaxAge := m.store.MaxAge, encode := r.encode },
           oidcConfig := config, data := SessionData.zero,
           timeout := m.sessionTimeout } : Session σ) state m.loginTimeout).1 = none := by
      rw [hl]
      exact he
    split
    · rename_i err s1 heq
      rw [heq] at hsv
      simp at hsv
    · rename_i s1 heq
      refine ⟨rfl, s1, rfl, ?_⟩
      have : (Session.saveState
        ({ sessionImpl := m.sessionImpl,
           session := { Values := values, MaxAge := m.store.MaxAge, encode := r.encode },
           oidcConfig := config, data := SessionData.zero,
           timeout := m.sessionTimeout } : Session σ) state m.loginTimeout).2.session.MaxAge
          = m.loginTimeout := rfl
      rw [heq] at this
      rw [← hl]
      exact this
  · intro config r state w s h
    unfold Manager.LoginHandlerOidc at h
    cases hn : m.NewSession r config with
    | error err => simp [hn] at h
    | ok s0 =>
      simp only [hn] at h
      split at h
      · simp at h
      · rename_i s1 hsv
        simp only [Option.some.injEq] at h
        subst h
        have : (s0.saveState state m.loginTimeout).2.session.MaxAge = m.loginTimeout := rfl
        rw [hsv] at this
        rw [← hl]
        exact this
  · intro s id
    exact ⟨rfl, rfl⟩
  · intro config r s h
    have ht : s.timeout = c.SessionTimeout := by
      unfold Manager.NewSession at h
      cases hc : r.cookie with
      | error err => simp [hc] at h
      | ok values =>
        simp only [hc] at h
        cases h
        exact hs
    refine ⟨ht, ?_⟩
    intro w token hok
    rw [← ht]
    exact Save_ok_MaxAge s w token hok
  · intro config r w s w1 h
    have ht : s.timeout = c.SessionTimeout := by
      rw [GetSession_timeout m r config w w1 s h, hs]
    refine ⟨ht, ?_⟩
    intro w2 token hok
    rw [← ht]
    exact Update_ok_MaxAge s w2 token hok
  · intro k hk hlo hhi
    have hd : durationSeconds c.SessionTimeout = k := by
      rw [hk]
      exact durationSeconds_whole k (by omega)
    refine ⟨hd, ?_⟩
    rw [hd, hk, Int.mul_tdiv_cancel k (by decide)]
  · intro s w id hi hd
    unfold Session.Delete
    simp only [hi, hd]
    exact ⟨trivial, rfl⟩
  · intro s w h
    have hmax : (s.Delete w).2.1.session.MaxAge = -1 := by
      unfold Session.Delete at h ⊢
      cases hi : s.session.Values.string? .sessionIdName with
      | none => simp [hi] at h
      | some id =>
        simp only [hi] at h ⊢
        cases hd : (s.sessionImpl.Delete w.db id).1 with
        | some err => simp [hd] at h
        | none => simp [hd]
    exact ⟨hmax, by rw [hmax]; decide⟩

theorem MaxAge_by_written_state_witness :
    ((managerOf.LoginHandlerOidc (oidcOf aliceToken) (requestOf (fun _ => none) "" "")
        "nonce-1" (freshWorld .sqlite)).status = [302] ∧
      ∃ s, (managerOf.LoginHandlerOidc (oidcOf aliceToken) (requestOf (fun _ => none) "" "")
          "nonce-1" (freshWorld .sqlite)).session = some s ∧
        s.session.MaxAge = Int.tdiv mainConfiguration.LoginTimeout 1000000000) ∧
    Int.tdiv mainConfiguration.LoginTimeout 1000000000 = 300 ∧
    ((handleWith (oidcOf aliceToken) (fun _ => none)).saveSession "id-1").2.session.MaxAge
      = durationSeconds (handleWith (oidcOf aliceToken) (fun _ => none)).timeout ∧
    durationSeconds mainConfiguration.SessionTimeout = 1800 ∧
    ((handleOf (valuesWithId "id-1")).Delete (worldOf .sqlite aliceTable)).2.1.session.MaxAge
      = -1 :=
  have h := MaxAge_by_written_state mainConfiguration Backend.impl managerOf rfl
  ⟨h.2.1 (oidcOf aliceToken) (requestOf (fun _ => none) "" "") "nonce-1" (freshWorld .sqlite)
      (fun _ => none) rfl rfl,
   by decide,
   (h.2.2.2.1 (handleWith (oidcOf aliceToken) (fun _ => none)) "id-1").1,
   (h.2.2.2.2.2.2.1 1800 (by decide) (by decide) (by decide)).1,
   (h.2.2.2.2.2.2.2.2 (handleOf (valuesWithId "id-1")) (worldOf .sqlite aliceTable)
      (by decide)).1⟩

/-! ## Helper lemmas: the `UPDATE` statement -/

theorem any_of_find? (t : Table) (p : Row → Bool) (r : Row) (h : t.find? p = some r) :
    t.any p = true := by
  have hp := List.find?_some h
  have hm := List.mem_of_find?_eq_some h
  exact List.any_eq_true.mpr ⟨r, hm, hp⟩

theorem find?_map_replace (t : Table) (r : Row)
    (hany : t.any (fun x => x.session_id == r.session_id) = true) :
    (t.map (fun x => if x.session_id == r.session_id then r else x)).find?
      (fun x => x.session_id == r.session_id) = some r := by
  induction t with
  | nil => simp at hany
  | cons a t ih =>
    by_cases ha : (a.session_id == r.session_id) = true
    · simp only [List.map_cons, List.find?_cons, ha, if_true, beq_self_eq_true]
    · simp only [List.any_cons, Bool.or_eq_true] at hany
      have ht := hany.resolve_left ha
      have ha2 : (a.session_id == r.session_id) = false := by simpa using ha
      simp only [List.map_cons, List.find?_cons, ha2, Bool.false_eq_true, if_false]
      exact ih ht

theorem find?_map_other (t : Table) (r : Row) (id2 : String) (h : id2 ≠ r.session_id) :
    (t.map (fun x => if x.session_id == r.session_id then r else x)).find?
      (fun x => x.session_id == id2) = t.find? (fun x => x.session_id == id2) := by
  have hr : (r.session_id == id2) = false := by
    simpa using fun e => h e.symm
  induction t with
  | nil => rfl
  | cons a t ih =>
    by_cases ha : (a.session_id == r.session_id) = true
    · have hb : (a.session_id == id2) = false := by
        have e : a.session_id = r.session_id := by simpa using ha
        rw [e]
        exact hr
      simp only [List.map_cons, List.find?_cons, ha, if_true, hr, hb]
      exact ih
    · have ha2 : (a.session_id == r.session_id) = false := by simpa using ha
      simp only [List.map_cons, List.find?_cons, ha2, Bool.false_eq_true, if_false]
      cases hb : (a.session_id == id2) with
      | true => rfl
      | false => exact ih

theorem filter_map_other (t : Table) (r : Row) :
    (t.map (fun x => if x.session_id == r.session_id then r else x)).filter
      (fun x => !(x.session_id == r.session_id))
      = t.filter (fun x => !(x.session_id == r.session_id)) := by
  induction t with
  | nil => rfl
  | cons a t ih =>
    by_cases ha : (a.session_id == r.session_id) = true
    · simp only [List.map_cons, List.filter_cons, ha, if_true, beq_self_eq_true, Bool.not_true,
        Bool.false_eq_true, if_false]
      exact ih
    · have ha2 : (a.session_id == r.session_id) = false := by simpa using ha
      simp only [List.map_cons, List.filter_cons, ha2, Bool.false_eq_true, if_false,
        Bool.not_false, if_true]
      rw [ih]

theorem encryptArgs_keeps (cipher : Option HexCipher) (s enc : SessionData)
    (h : encryptArgs cipher s = .ok enc) :
    enc.Subject = s.Subject ∧ enc.ExpiresAt = s.ExpiresAt := by
  cases cipher with
  | none =>
    simp only [encryptArgs] at h
    cases h
    exact ⟨rfl, rfl⟩
  | some c =>
    simp only [encryptArgs] at h
    split at h
    · cases h
    · split at h
      · cases h
      · split at h
        · cases h
        · cases h
          exact ⟨rfl, rfl⟩

/-! ## Theorems: `Update` with the same subject -/

/-- C20 (counterexample): on a SQLite store without cipher, `Update` with the
stored subject and an `ExpiresAt` that has a fraction of a second succeeds, and
the following `Get` returns the record with `ExpiresAt` cut to the second, not
`r2`; on a store whose cipher cannot encrypt, and on a PostgreSQL store when
`ExpiresAt` is past the 32-bit `expires_at` column, `Update` with the stored
subject and four non-empty strings fails. -/
theorem Update_same_subject_not_wholesale :
    ((Store.mk .sqlite none aliceTable).Update "id-1"
        ⟨"alice", "at2", "rt2", "it2", ⟨1700000600, 5⟩⟩).1 = none ∧
    ((Store.mk .sqlite none aliceTable).Update "id-1"
        ⟨"alice", "at2", "rt2", "it2", ⟨1700000600, 5⟩⟩).2.Get "id-1"
      = .ok ⟨"alice", "at2", "rt2", "it2", ⟨1700000600, 0⟩⟩ ∧
    ((Store.mk .sqlite none aliceTable).Update "id-1"
        ⟨"alice", "at2", "rt2", "it2", ⟨1700000600, 5⟩⟩).2.Get "id-1"
      ≠ .ok ⟨"alice", "at2", "rt2", "it2", ⟨1700000600, 5⟩⟩ ∧
    (Store.mk .sqlite (some readOnlyCipher)
        [⟨"id-1", "alice", "a5at", "a5rt", "a5it", 1700000000⟩]).Get "id-1"
      = .ok ⟨"alice", "at", "rt", "it", ⟨1700000000, 0⟩⟩ ∧
    ((Store.mk .sqlite (some readOnlyCipher)
        [⟨"id-1", "alice", "a5at", "a5rt", "a5it", 1700000000⟩]).Update "id-1"
        ⟨"alice", "at2", "rt2", "it2", ⟨1700000600, 0⟩⟩).1
      = some (.wrap (.foreign "no entropy") "cannot encrypt access token: no entropy") ∧
    ((Store.mk .postgresql none aliceTable).Update "id-1"
        ⟨"alice", "at2", "rt2", "it2", ⟨2147483648, 0⟩⟩).1
      = some (.foreign "value out of range for the column type") := by
  decide

/-- C20 (amended): for either engine, when `Get(id)` returns `r1`, `r2` has four
non-empty strings and the subject of `r1`, the store has no cipher or a cipher
that encrypts the tokens of `r2` to non-empty texts and whose decryption
inverts its encryption, and the column types of the engine take the new row,
`Update(id, r2)` succeeds; the following `Get(id)` returns `r2` with
`ExpiresAt` cut to whole seconds, which is `r2` exactly when `r2.ExpiresAt`
has no fraction of a second; and `Get` of every other identifier, and every
row stored under another identifier, is as before. -/
theorem Update_same_subject (db : Store) (id : String) (r1 r2 enc : SessionData)
    (hget : db.Get id = .ok r1) (hsub : r2.Subject = r1.Subject)
    (hne : r2.Subject ≠ "" ∧ r2.AccessToken ≠ "" ∧ r2.RefreshToken ≠ "" ∧ r2.IDToken ≠ "")
    (henc : encryptArgs db.cipher r2 = .ok enc)
    (hcipher : ∀ c, db.cipher = some c →
      (enc.AccessToken ≠ "" ∧ enc.RefreshToken ≠ "" ∧ enc.IDToken ≠ "") ∧
      ∀ x y, c.EncryptToHexString x = .ok y → c.DecryptFromHexString y = .ok x)
    (hfit : (Store.rowOf id enc).fits db.engine = true) :
    (db.Update id r2).1 = none ∧
    (db.Update id r2).2.Get id = .ok { r2 with ExpiresAt := Time.ofUnix r2.ExpiresAt.Unix } ∧
    ((db.Update id r2).2.Get id = .ok r2 ↔ r2.ExpiresAt.nsec = 0) ∧
    (∀ id2, id2 ≠ id → (db.Update id r2).2.Get id2 = db.Get id2) ∧
    (db.Update id r2).2.table.filter (fun x => !(x.session_id == id))
      = db.table.filter (fun x => !(x.session_id == id)) := by
  obtain ⟨hkS, hkE⟩ := encryptArgs_keeps db.cipher r2 enc henc
  have hinv : ∀ c, db.cipher = some c → ∀ x y,
      c.EncryptToHexString x = .ok y → c.DecryptFromHexString y = .ok x :=
    fun c hc => (hcipher c hc).2
  have hrow : (Store.rowOf id enc).session_id = id := rfl
  have hany : db.table.any (fun x => x.session_id == id) = true := by
    unfold Store.Get at hget
    cases hq : queryRowSelect db.engine db.table id with
    | error err => simp [hq] at hget
    | ok row =>
      unfold queryRowSelect at hq
      cases hf : db.table.find? (fun x => x.session_id == id) with
      | none => simp [hf] at hq
      | some row2 => exact any_of_find? _ _ _ hf
  have hchk : (Store.rowOf id enc).checks = true := by
    have hs : enc.Subject ≠ "" := by rw [hkS]; exact hne.1
    have ht : enc.AccessToken ≠ "" ∧ enc.RefreshToken ≠ "" ∧ enc.IDToken ≠ "" := by
      cases hc : db.cipher with
      | none =>
        rw [hc] at henc
        simp only [encryptArgs] at henc
        cases henc
        exact hne.2
      | some c => exact (hcipher c hc).1
    simp [Row.checks, Store.rowOf, hs, ht.1, ht.2.1, ht.2.2]
  have hupd : db.Update id r2
      = (none, Store.mk db.engine db.cipher (List.map
          (fun x => if x.session_id == (Store.rowOf id enc).session_id
            then Store.rowOf id enc else x) db.table)) := by
    unfold Store.Update
    rw [hget]
    simp only
    rw [if_neg (not_not.mpr hsub)]
    simp only [henc]
    unfold execUpdate
    rw [hrow, if_pos hany]
    simp [hfit, hchk]
  have hgetNew : (db.Update id r2).2.Get id
      = .ok { r2 with ExpiresAt := Time.ofUnix r2.ExpiresAt.Unix } := by
    rw [hupd]
    unfold Store.Get queryRowSelect
    simp only
    have hf : List.find? (fun x => x.session_id == id)
        (List.map (fun x => if x.session_id == (Store.rowOf id enc).session_id
          then Store.rowOf id enc else x) db.table) = some (Store.rowOf id enc) :=
      find?_map_replace db.table (Store.rowOf id enc) hany
    rw [hf]
    simp only
    have := decryptArgs_encryptArgs db.cipher r2 enc (Time.ofUnix r2.ExpiresAt.Unix) hinv henc
    rw [← this, ← hkE]
    rfl
  refine ⟨by rw [hupd], hgetNew, ?_, ?_, ?_⟩
  · rw [hgetNew]
    constructor
    · intro h
      have h2 : ({ r2 with ExpiresAt := Time.ofUnix r2.ExpiresAt.Unix } : SessionData) = r2 :=
        Except.ok.inj h
      exact (congrArg Time.nsec (congrArg SessionData.ExpiresAt h2)).symm
    · intro h
      cases r2 with
      | mk sub a rt i e =>
        cases e with
        | mk sec nsec =>
          simp only at h
          subst h
          rfl
  · intro id2 hid
    rw [hupd]
    unfold Store.Get queryRowSelect
    simp only
    rw [find?_map_other db.table (Store.rowOf id enc) id2 hid]
  · rw [hupd]
    exact filter_map_other db.table (Store.rowOf id enc)

theorem Update_same_subject_witness :
    ((Store.mk .postgresql (some headerCipher)
        [⟨"id-1", "alice", "a5at", "a5rt", "a5it", 1700000000⟩,
         ⟨"id-2", "bob", "a5bt", "a5br", "a5bi", 1700000000⟩]).Update "id-1"
        ⟨"alice", "at2", "rt2", "it2", ⟨1700000600, 0⟩⟩).1 = none ∧
    ((Store.mk .postgresql (some headerCipher)
        [⟨"id-1", "alice", "a5at", "a5rt", "a5it", 1700000000⟩,
         ⟨"id-2", "bob", "a5bt", "a5br", "a5bi", 1700000000⟩]).Update "id-1"
        ⟨"alice", "at2", "rt2", "it2", ⟨1700000600, 0⟩⟩).2.Get "id-1"
      = .ok ⟨"alice", "at2", "rt2", "it2", ⟨1700000600, 0⟩⟩ :=
  have h := Update_same_subject
    (Store.mk .postgresql (some headerCipher)
      [⟨"id-1", "alice", "a5at", "a5rt", "a5it", 1700000000⟩,
       ⟨"id-2", "bob", "a5bt", "a5br", "a5bi", 1700000000⟩]) "id-1"
    ⟨"alice", "at", "rt", "it", ⟨1700000000, 0⟩⟩
    ⟨"alice", "at2", "rt2", "it2", ⟨1700000600, 0⟩⟩
    ⟨"alice", "a5at2", "a5rt2", "a5it2", ⟨1700000600, 0⟩⟩
    (by decide) (by decide) (by decide) (by decide)
    (by
      intro c hc
      cases hc
      refine ⟨by decide, ?_⟩
      intro x y hxy
      cases hxy
      rfl)
    (by decide)
  ⟨h.1, h.2.2.1.mpr rfl⟩

/-! ## Helper lemmas: identifiers that are not stored -/

theorem find?_none_of_any (t : Table) (p : Row → Bool) (h : t.any p = false) :
    t.find? p = none := by
  induction t with
  | nil => rfl
  | cons a t ih =>
    simp only [List.any_cons, Bool.or_eq_false_iff] at h
    simp only [List.find?_cons, h.1]
    exact ih h.2

theorem filter_of_any_false (t : Table) (p : Row → Bool) (h : t.any p = false) :
    t.filter (fun x => !p x) = t := by
  induction t with
  | nil => rfl
  | cons a t ih =>
    simp only [List.any_cons, Bool.or_eq_false_iff] at h
    simp only [List.filter_cons, h.1, Bool.not_false, if_true]
    rw [ih h.2]

theorem any_filter_not (t : Table) (p : Row → Bool) :
    (t.filter (fun x => !p x)).any p = false := by
  induction t with
  | nil => rfl
  | cons a t ih =>
    cases hp : p a with
    | true =>
      simp only [List.filter_cons, hp, Bool.not_true, Bool.false_eq_true, if_false]
      exact ih
    | false =>
      simp only [List.filter_cons, hp, Bool.not_false, if_true, List.any_cons, Bool.false_or]
      exact ih

/-! ## Theorems: `dataFromDB` of an identifier without record -/

/-- C8 (code defect): for an identifier that no record matches (its record was
deleted), whatever the table, the cipher and the calls made before, `Get` of
the PostgreSQL engine reports it with `pgx.ErrNoRows`, and `dataFromDB`, after
its one call of `Get`, fails with an error that wraps
`ErrCannotRetrieveSessionData` and is not `ErrSessionNotFound`; on the SQLite
engine `Get` returns `sql.ErrNoRows` and `dataFromDB` fails with
`ErrSessionNotFound`. -/
theorem dataFromDB_missing_record_on_postgresql (b : Backend) (cipher : Option HexCipher)
    (table : Table) (id : String) (calls : List StoreCall) :
    (Store.mk .postgresql cipher (execDelete table id)).Get id = .error .pgxErrNoRows ∧
    ((handleOf (valuesWithId id)).dataFromDB
        { db := { b with db := Store.mk .postgresql cipher (execDelete table id) },
          calls := calls }).1
      = some (.wrap .ErrCannotRetrieveSessionData
          "cannot retrieve session data: no rows in result set") ∧
    (GoError.wrap .ErrCannotRetrieveSessionData
        "cannot retrieve session data: no rows in result set").Is .ErrSessionNotFound
      = false ∧
    ((handleOf (valuesWithId id)).dataFromDB
        { db := { b with db := Store.mk .postgresql cipher (execDelete table id) },
          calls := calls }).2.2.calls = calls ++ [StoreCall.Get id] ∧
    (Store.mk .sqlite cipher (execDelete table id)).Get id = .error .sqlErrNoRows ∧
    ((handleOf (valuesWithId id)).dataFromDB
        { db := { b with db := Store.mk .sqlite cipher (execDelete table id) },
          calls := calls }).1 = some .ErrSessionNotFound := by
  have hf : (execDelete table id).find? (fun x => x.session_id == id) = none :=
    find?_none_of_any _ _ (any_filter_not table (fun x => x.session_id == id))
  have hp : (Store.mk .postgresql cipher (execDelete table id)).Get id
      = .error .pgxErrNoRows := by
    simp only [Store.Get, queryRowSelect, hf, Engine.ErrNoRows]
  have hs : (Store.mk .sqlite cipher (execDelete table id)).Get id
      = .error .sqlErrNoRows := by
    simp only [Store.Get, queryRowSelect, hf, Engine.ErrNoRows]
  have hid : (handleOf (valuesWithId id)).session.Values.string? .sessionIdName = some id :=
    rfl
  refine ⟨hp, ?_, by decide, ?_, hs, ?_⟩
  · unfold Session.dataFromDB
    simp only [hid]
    have hg : ((handleOf (valuesWithId id)).sessionImpl.Get
        { b with db := Store.mk .postgresql cipher (execDelete table id) } id).1
        = .error .pgxErrNoRows := hp
    simp only [hg]
    decide
  · unfold Session.dataFromDB
    simp only [hid]
    have hg : ((handleOf (valuesWithId id)).sessionImpl.Get
        { b with db := Store.mk .postgresql cipher (execDelete table id) } id).1
        = .error .pgxErrNoRows := hp
    simp only [hg]
  · unfold Session.dataFromDB
    simp only [hid]
    have hg : ((handleOf (valuesWithId id)).sessionImpl.Get
        { b with db := Store.mk .sqlite cipher (execDelete table id) } id).1
        = .error .sqlErrNoRows := hs
    simp only [hg]

/-! ## Theorems: `Update` and `Delete` of missing identifiers, the cipher -/

/-- C21: for either engine, `Update` on an identifier with no row fails with
the engine's no-row error and leaves the store as it was: no row is created
and `Get` of the identifier still reports no row. -/
theorem Update_missing_identifier (db : Store) (id : String) (s : SessionData)
    (h : db.table.any (fun x => x.session_id == id) = false) :
    (db.Update id s).1 = some db.engine.ErrNoRows ∧
    (db.Update id s).2 = db ∧
    (db.Update id s).2.Get id = .error db.engine.ErrNoRows := by
  have hget : db.Get id = .error db.engine.ErrNoRows := by
    unfold Store.Get queryRowSelect
    rw [find?_none_of_any db.table _ h]
  have hupd : db.Update id s = (some db.engine.ErrNoRows, db) := by
    unfold Store.Update
    rw [hget]
  rw [hupd]
  exact ⟨rfl, rfl, hget⟩

theorem Update_missing_identifier_witness :
    ((Store.mk .postgresql (some headerCipher) aliceTable).Update "NOT_VALID_ID"
        ⟨"alice", "at2", "rt2", "it2", ⟨1700000600, 0⟩⟩).1 = some .pgxErrNoRows ∧
    ((Store.mk .sqlite none aliceTable).Update "NOT_VALID_ID"
        ⟨"alice", "at2", "rt2", "it2", ⟨1700000600, 0⟩⟩).2 = Store.mk .sqlite none aliceTable :=
  ⟨(Update_missing_identifier (Store.mk .postgresql (some headerCipher) aliceTable)
      "NOT_VALID_ID" ⟨"alice", "at2", "rt2", "it2", ⟨1700000600, 0⟩⟩ (by decide)).1,
   (Update_missing_identifier (Store.mk .sqlite none aliceTable)
      "NOT_VALID_ID" ⟨"alice", "at2", "rt2", "it2", ⟨1700000600, 0⟩⟩ (by decide)).2.1⟩

/-- C22: for either engine, `Delete` returns no error; on an identifier with no
row it leaves the store as it was; on a stored identifier it removes the rows
of that identifier and keeps every other row, in place; a second `Delete` of
the same identifier changes nothing; and after `Delete(id)`, `Get(id)` fails
with the engine's no-row error. -/
theorem Delete_idempotent (db : Store) (id : String) :
    (db.Delete id).1 = none ∧
    (db.table.any (fun x => x.session_id == id) = false → (db.Delete id).2 = db) ∧
    (db.Delete id).2.table = db.table.filter (fun x => !(x.session_id == id)) ∧
    (∀ r, r ∈ (db.Delete id).2.table ↔ r ∈ db.table ∧ r.session_id ≠ id) ∧
    (db.Delete id).2.engine = db.engine ∧
    (db.Delete id).2.cipher = db.cipher ∧
    (db.Delete id).2.Delete id = (none, (db.Delete id).2) ∧
    (db.Delete id).2.Get id = .error db.engine.ErrNoRows := by
  refine ⟨rfl, ?_, rfl, ?_, rfl, rfl, ?_, ?_⟩
  · intro h
    have := filter_of_any_false db.table (fun x => x.session_id == id) h
    simp only [Store.Delete, execDelete, this]
  · intro r
    simp [Store.Delete, execDelete]
  · simp [Store.Delete, execDelete, List.filter_filter]
  · have h := any_filter_not db.table (fun x => x.session_id == id)
    unfold Store.Get queryRowSelect
    simp only [Store.Delete, execDelete]
    rw [find?_none_of_any _ _ h]

theorem Delete_idempotent_witness :
    (Store.mk .sqlite none aliceTable).Delete "NOT_VALID"
      = (none, Store.mk .sqlite none aliceTable) ∧
    ((Store.mk .sqlite none aliceTable).Delete "id-1").2.table = [] :=
  ⟨by
    have h := (Delete_idempotent (Store.mk .sqlite none aliceTable) "NOT_VALID").2.1
      (by decide)
    exact Prod.ext rfl h,
   by
    rw [(Delete_idempotent (Store.mk .sqlite none aliceTable) "id-1").2.2.1]
    decide⟩

/-- C24: without cipher `encryptArgs` and `decryptArgs` return the record as
it is; with a cipher whose `DecryptFromHexString` inverts its
`EncryptToHexString`, `decryptArgs` of the result of `encryptArgs` is the
record, and when the cipher encrypts every text `encryptArgs` succeeds; the
result of `encryptArgs` has the `Subject` and the `ExpiresAt` of the record. -/
theorem encryptArgs_decryptArgs (s : SessionData) :
    encryptArgs none s = .ok s ∧
    decryptArgs none s = .ok s ∧
    (∀ (c : HexCipher) enc,
      (∀ x y, c.EncryptToHexString x = .ok y → c.DecryptFromHexString y = .ok x) →
      encryptArgs (some c) s = .ok enc → decryptArgs (some c) enc = .ok s) ∧
    (∀ (c : HexCipher),
      (∀ x, ∃ y, c.EncryptToHexString x = .ok y ∧ c.DecryptFromHexString y = .ok x) →
      ∃ enc, encryptArgs (some c) s = .ok enc ∧ decryptArgs (some c) enc = .ok s) ∧
    (∀ cipher enc, encryptArgs cipher s = .ok enc →
      enc.Subject = s.Subject ∧ enc.ExpiresAt = s.ExpiresAt) := by
  refine ⟨rfl, rfl, ?_, ?_, ?_⟩
  · intro c enc hinv henc
    have hk := encryptArgs_keeps (some c) s enc henc
    have h := decryptArgs_encryptArgs (some c) s enc s.ExpiresAt
      (fun c2 hc => by cases hc; exact hinv) henc
    have e1 : ({ enc with ExpiresAt := s.ExpiresAt } : SessionData) = enc := by
      rw [← hk.2]
    have e2 : ({ s with ExpiresAt := s.ExpiresAt } : SessionData) = s := rfl
    rw [e1, e2] at h
    exact h
  · intro c htot
    obtain ⟨ya, hea, hda⟩ := htot s.AccessToken
    obtain ⟨yr, her, hdr⟩ := htot s.RefreshToken
    obtain ⟨yi, hei, hdi⟩ := htot s.IDToken
    refine ⟨⟨s.Subject, ya, yr, yi, s.ExpiresAt⟩, ?_, ?_⟩
    · simp [encryptArgs, hea, her, hei]
    · simp [decryptArgs, hda, hdr, hdi]
  · intro cipher enc henc
    exact encryptArgs_keeps cipher s enc henc

theorem encryptArgs_decryptArgs_witness :
    decryptArgs (some headerCipher) ⟨"alice", "a5at", "a5rt", "a5it", ⟨1700000000, 7⟩⟩
      = .ok ⟨"alice", "at", "rt", "it", ⟨1700000000, 7⟩⟩ :=
  (encryptArgs_decryptArgs ⟨"alice", "at", "rt", "it", ⟨1700000000, 7⟩⟩).2.2.1 headerCipher
    ⟨"alice", "a5at", "a5rt", "a5it", ⟨1700000000, 7⟩⟩
    (by
      intro x y hxy
      cases hxy
      rfl)
    (by decide)

/-! ## Helper lemmas: outcomes of `GetSession` and `Update` -/

theorem dataFromDB_error_ne {σ : Type} (s : Session σ) (w : World σ) :
    (s.dataFromDB w).1 ≠ some .ErrCannotGetCookie := by
  unfold Session.dataFromDB
  cases s.session.Values.string? .sessionIdName with
  | none => simp
  | some id =>
    simp only
    cases (s.sessionImpl.Get w.db id).1 with
    | ok data => simp
    | error err => cases err <;> simp

theorem GetSession_cases {σ : Type} (m : Manager σ) (r : Request) (config : OidcConfig)
    (w : World σ) :
    (∃ s w1, m.GetSession r config w = (some s, none, w1)) ∨
    (∃ err w1, m.GetSession r config w = (none, some err, w1) ∧
      err ≠ .ErrCannotGetCookie) := by
  unfold Manager.GetSession
  cases hc : r.cookie with
  | error err =>
    right
    exact ⟨_, w, rfl, by simp⟩
  | ok values =>
    simp only
    split
    · left
      exact ⟨_, w, rfl⟩
    · split
      · rename_i err s2 w2 hd
        right
        refine ⟨err, w2, rfl, ?_⟩
        intro he
        have := dataFromDB_error_ne
          ({ sessionImpl := m.sessionImpl,
             session := { Values := values, MaxAge := m.store.MaxAge, encode := r.encode },
             oidcConfig := config, data := SessionData.zero,
             timeout := m.sessionTimeout } : Session σ) w
        rw [hd, he] at this
        exact this rfl
      · rename_i s2 w2 hd
        left
        exact ⟨s2, w2, rfl⟩

theorem authenticated_some_no_panic {σ : Type} (config : OidcConfig) (now : Time)
    (status : List Nat) (s : Session σ) (w : World σ) :
    (authenticated config now status (some s) w).panicked = false := by
  unfold authenticated
  simp only
  split
  · split
    · rfl
    · split <;> rfl
  · rfl

theorem Update_ok_AccessToken {σ : Type} (s : Session σ) (w : World σ) (token : Token)
    (h : (s.Update w token).1 = none) :
    (s.Update w token).2.1.data.AccessToken = token.AccessToken := by
  unfold Session.Update at h ⊢
  cases hn : s.newData token with
  | error err => simp [hn] at h
  | ok data =>
    have hd : data.AccessToken = token.AccessToken := by
      unfold Session.newData at hn
      cases hg : s.oidcConfig.GetIdToken token with
      | error err => simp [hg] at hn
      | ok idToken =>
        simp only [hg] at hn
        cases hn
        rfl
    simp only [hn] at h ⊢
    cases hi : s.session.Values.string? .sessionIdName with
    | none => simp [hi] at h
    | some id =>
      simp only [hi] at h ⊢
      cases hu : (s.sessionImpl.Update w.db id data).1 with
      | some err => simp [hu] at h
      | none => simp [hu, Session.saveSession, hd]

/-! ## Theorems: authentication middleware -/

/-- C27: for every manager, collaborator, request, clock and world, the
middleware does not end in a nil-pointer panic: `GetSession` returns a handle
when it returns no error, and none of its errors is `==` to
`ErrCannotGetCookie`, the one case of the switch that does not return. -/
theorem middleware_never_panics {σ : Type} (m : Manager σ) (config : OidcConfig)
    (r : Request) (now : Time) (w : World σ) :
    (m.AuthenticationMiddleware config r now w).panicked = false := by
  unfold Manager.AuthenticationMiddleware
  rcases GetSession_cases m r config w with ⟨s, w1, h⟩ | ⟨err, w1, h, hne⟩
  · rw [h]
    exact authenticated_some_no_panic config now [] s w1
  · rw [h]
    cases err <;> first | rfl | exact absurd rfl hne

/-- C23: when `GetSession` returns the handle `s`, the middleware invokes the
wrapped handler once, with `s.data.AccessToken` (the access token of the
record that `Get` returned) when the record is not expired, and with the
access token of the refreshed token when the record is expired and the refresh
and `Session.Update` succeed, writing no status; when the refresh fails it
answers 401, makes no store call (so no `Update`) and does not invoke the
handler. -/
theorem middleware_invokes_handler {σ : Type} (m : Manager σ) (config : OidcConfig)
    (r : Request) (now : Time) (w w1 : World σ) (s : Session σ)
    (hget : m.GetSession r config w = (some s, none, w1)) :
    (s.data.IsExpired now = false →
      (m.AuthenticationMiddleware config r now w).status = [] ∧
      (m.AuthenticationMiddleware config r now w).next = [s.data.AccessToken] ∧
      (m.AuthenticationMiddleware config r now w).world = w1) ∧
    (s.data.IsExpired now = true → ∀ token,
      config.Refresh s.data.RefreshToken = .ok token → (s.Update w1 token).1 = none →
      (m.AuthenticationMiddleware config r now w).status = [] ∧
      (m.AuthenticationMiddleware config r now w).next = [token.AccessToken]) ∧
    (s.data.IsExpired now = true → ∀ err,
      config.Refresh s.data.RefreshToken = .error err →
      (m.AuthenticationMiddleware config r now w).status = [401] ∧
      (m.AuthenticationMiddleware config r now w).next = [] ∧
      (m.AuthenticationMiddleware config r now w).world = w1) ∧
    (∀ values id data, r.cookie = .ok values →
      values.string? .sessionStateName = none → values.string? .sessionIdName = some id →
      (m.sessionImpl.Get w.db id).1 = .ok data → s.data = data) := by
  refine ⟨?_, ?_, ?_, ?_⟩
  · intro hexp
    unfold Manager.AuthenticationMiddleware
    rw [hget]
    simp [authenticated, hexp]
  · intro hexp token href hupd
    have hat := Update_ok_AccessToken s w1 token hupd
    unfold Manager.AuthenticationMiddleware
    rw [hget]
    simp only [authenticated, hexp, href, if_true]
    rcases hu : s.Update w1 token with ⟨e, s2, w2⟩
    rw [hu] at hupd hat
    simp only at hupd hat
    subst hupd
    simp [hat]
  · intro hexp err href
    unfold Manager.AuthenticationMiddleware
    rw [hget]
    simp [authenticated, hexp, href]
  · intro values id data hc hs hi hg
    unfold Manager.GetSession at hget
    simp only [hc, hs] at hget
    unfold Session.dataFromDB at hget
    simp only [hi, hg] at hget
    simp only [Prod.mk.injEq, Option.some.injEq] at hget
    rw [← hget.1]

theorem middleware_invokes_handler_witness :
    (managerOf.AuthenticationMiddleware (oidcOf aliceToken)
        (requestOf (valuesWithId "id-1") "" "") ⟨1699999000, 0⟩
        (worldOf .sqlite aliceTable)).next = ["at-0"] ∧
    (managerOf.AuthenticationMiddleware (oidcOf aliceToken)
        (requestOf (valuesWithId "id-1") "" "") ⟨1700000100, 0⟩
        (worldOf .sqlite aliceTable)).next = ["at-1"] ∧
    (managerOf.AuthenticationMiddleware oidcDown
        (requestOf (valuesWithId "id-1") "" "") ⟨1700000100, 0⟩
        (worldOf .sqlite aliceTable)).status = [401] :=
  ⟨((middleware_invokes_handler managerOf (oidcOf aliceToken)
      (requestOf (valuesWithId "id-1") "" "") ⟨1699999000, 0⟩ (worldOf .sqlite aliceTable)
      { db := backendOf .sqlite aliceTable, calls := [StoreCall.Get "id-1"] }
      { sessionImpl := Backend.impl,
        session := { Values := valuesWithId "id-1", MaxAge := 0, encode := fun _ _ => none },
        oidcConfig := oidcOf aliceToken,
        data := ⟨"alice", "at-0", "rt-at-0", "idt-alice", ⟨1700000000, 0⟩⟩,
        timeout := 1800000000000 } rfl).1 (by decide)).2.1,
   ((middleware_invokes_handler managerOf (oidcOf aliceToken)
      (requestOf (valuesWithId "id-1") "" "") ⟨1700000100, 0⟩ (worldOf .sqlite aliceTable)
      { db := backendOf .sqlite aliceTable, calls := [StoreCall.Get "id-1"] }
      { sessionImpl := Backend.impl,
        session := { Values := valuesWithId "id-1", MaxAge := 0, encode := fun _ _ => none },
        oidcConfig := oidcOf aliceToken,
        data := ⟨"alice", "at-0", "rt-at-0", "idt-alice", ⟨1700000000, 0⟩⟩,
        timeout := 1800000000000 } rfl).2.1 (by decide) aliceToken rfl (by decide)).2,
   ((middleware_invokes_handler managerOf oidcDown
      (requestOf (valuesWithId "id-1") "" "") ⟨1700000100, 0⟩ (worldOf .sqlite aliceTable)
      { db := backendOf .sqlite aliceTable, calls := [StoreCall.Get "id-1"] }
      { sessionImpl := Backend.impl,
        session := { Values := valuesWithId "id-1", MaxAge := 0, encode := fun _ _ => none },
        oidcConfig := oidcDown,
        data := ⟨"alice", "at-0", "rt-at-0", "idt-alice", ⟨1700000000, 0⟩⟩,
        timeout := 1800000000000 } rfl).2.2.1 (by decide)
      (.foreign "provider unreachable") rfl).1⟩

/-- C28: for a request whose cookie holds a login-state nonce (and no session
identifier, or any), at any clock after the zero time, the middleware answers
401 Unauthorized, does not invoke the wrapped handler and makes no store call,
whatever the token endpoint would answer: the handle carries the empty record,
whose refresh token is empty, and the refresh fails before any request. -/
theorem middleware_pending_login {σ : Type} (m : Manager σ) (config : OidcConfig)
    (r : Request) (now : Time) (w : World σ) (values : ValueMap) (n : String)
    (hc : r.cookie = .ok values)
    (hs : values.string? .sessionStateName = some n)
    (hnow : now.After Time.zero = true) :
    (m.AuthenticationMiddleware config r now w).status = [401] ∧
    (m.AuthenticationMiddleware config r now w).next = [] ∧
    (m.AuthenticationMiddleware config r now w).panicked = false ∧
    (m.AuthenticationMiddleware config r now w).world = w := by
  have hexp : SessionData.zero.IsExpired now = true := hnow
  have hget : m.GetSession r config w
      = (some { sessionImpl := m.sessionImpl,
                session := { Values := values, MaxAge := m.store.MaxAge, encode := r.encode },
                oidcConfig := config, data := SessionData.zero,
                timeout := m.sessionTimeout }, none, w) := by
    unfold Manager.GetSession
    simp only [hc, hs]
  have href : config.Refresh SessionData.zero.RefreshToken
      = .error (.foreign "oauth2: token expired and refresh token is not set") := by
    simp [OidcConfig.Refresh, SessionData.zero]
  unfold Manager.AuthenticationMiddleware
  rw [hget]
  simp only [authenticated, hexp, href, if_true]
  simp

theorem middleware_pending_login_witness :
    (managerOf.AuthenticationMiddleware (oidcOf aliceToken)
        (requestOf (valuesWithState "nonce") "" "") ⟨1700000100, 0⟩
        (worldOf .sqlite aliceTable)).status = [401] ∧
    (managerOf.AuthenticationMiddleware (oidcOf aliceToken)
        (requestOf (valuesWithState "nonce") "" "") ⟨1700000100, 0⟩
        (worldOf .sqlite aliceTable)).next = [] ∧
    (oidcOf aliceToken).TokenSource "" = .ok aliceToken :=
  have h := middleware_pending_login managerOf (oidcOf aliceToken)
    (requestOf (valuesWithState "nonce") "" "") ⟨1700000100, 0⟩ (worldOf .sqlite aliceTable)
    (valuesWithState "nonce") "nonce" rfl (by decide) (by decide)
  ⟨h.1, h.2.1, rfl⟩

/-! ## Helper lemmas: the sweep loop -/

theorem sweep_foldl_exited {σ : Type} (db : SessionImpl σ) (events : List SweepEvent)
    (st : Sweep σ) (h : st.exited = true) :
    events.foldl (Sweep.step db) st = st := by
  induction events with
  | nil => rfl
  | cons e es ih =>
    have hs : Sweep.step db st e = st := by
      unfold Sweep.step
      rw [if_pos h]
    rw [List.foldl_cons, hs]
    exact ih

theorem sweep_foldl_running {σ : Type} (db : SessionImpl σ) (events : List SweepEvent) :
    ∀ st : Sweep σ, st.exited = false →
      (events.foldl (Sweep.step db) st).exited = decide (SweepEvent.cancelled ∈ events) ∧
      (events.foldl (Sweep.step db) st).closes
        = st.closes + (if SweepEvent.cancelled ∈ events then 1 else 0) ∧
      (events.foldl (Sweep.step db) st).world.calls
        = st.world.calls ++ List.replicate
            (events.takeWhile (fun e => decide (e = SweepEvent.tick))).length
            StoreCall.Purge := by
  induction events with
  | nil =>
    intro st h
    simp [h]
  | cons e es ih =>
    intro st h
    cases e with
    | cancelled =>
      have hs : Sweep.step db st .cancelled
          = { st with exited := true, stops := st.stops + 1, closes := st.closes + 1 } := by
        unfold Sweep.step
        simp [h]
      rw [List.foldl_cons, hs, sweep_foldl_exited db es _ rfl]
      simp
    | tick =>
      have hs : (Sweep.step db st .tick).exited = false ∧
          (Sweep.step db st .tick).closes = st.closes ∧
          (Sweep.step db st .tick).world.calls = st.world.calls ++ [StoreCall.Purge] := by
        unfold Sweep.step
        simp only [h, Bool.false_eq_true, if_false]
        cases (db.Purge st.world.db).1 <;> exact ⟨rfl, rfl, rfl⟩
      obtain ⟨h1, h2, h3⟩ := ih (Sweep.step db st .tick) hs.1
      rw [List.foldl_cons]
      refine ⟨?_, ?_, ?_⟩
      · rw [h1]
        simp
      · rw [h2, hs.2.1]
        simp
      · rw [h3, hs.2.2]
        simp [List.replicate_succ, List.append_assoc]

/-! ## Theorems: the sweep task, the constructors and the validators -/

/-- C25: for every store implementation, whatever its `Purge` returns, and
every sequence of cases taken by the `select`, `expiredSessionsCleaner` has
returned exactly when the cancellation case occurred, has closed `done` once
in that case and not at all otherwise, and has called `Purge` once for each
tick before the cancellation (for every tick when there is none). -/
theorem expiredSessionsCleaner_trace {σ : Type} (db : SessionImpl σ) (w : World σ)
    (events : List SweepEvent) :
    (expiredSessionsCleaner db w events).exited = decide (SweepEvent.cancelled ∈ events) ∧
    (expiredSessionsCleaner db w events).closes
      = (if SweepEvent.cancelled ∈ events then 1 else 0) ∧
    (expiredSessionsCleaner db w events).world.calls
      = w.calls ++ List.replicate
          (events.takeWhile (fun e => decide (e = SweepEvent.tick))).length StoreCall.Purge ∧
    (∀ n, (expiredSessionsCleaner db w (List.replicate n .tick)).exited = false ∧
      (expiredSessionsCleaner db w (List.replicate n .tick)).world.calls
        = w.calls ++ List.replicate n StoreCall.Purge) := by
  have h := sweep_foldl_running db events (Sweep.start w) rfl
  refine ⟨h.1, ?_, h.2.2, ?_⟩
  · have := h.2.1
    simpa [Sweep.start] using this
  · intro n
    have hn := sweep_foldl_running db (List.replicate n .tick) (Sweep.start w) rfl
    have hmem : SweepEvent.cancelled ∉ List.replicate n SweepEvent.tick := by
      intro hm
      have := List.eq_of_mem_replicate hm
      cases this
    have htw : (List.replicate n SweepEvent.tick).takeWhile
        (fun e => decide (e = SweepEvent.tick)) = List.replicate n SweepEvent.tick := by
      induction n with
      | zero => rfl
      | succ k ih => simp [List.replicate_succ, List.takeWhile_cons, ih]
    refine ⟨?_, ?_⟩
    · have := hn.1
      simpa [hmem] using this
    · have := hn.2.2
      rw [htw, List.length_replicate] at this
      exact this

theorem Process_step_once {σ : Type} (c : Configuration) (impl : Option (SessionImpl σ))
    (p : Process) (e : ProcessEvent)
    (h : p.started.length = (if p.once then 1 else 0) ∧
      p.closed.length + p.sweeper.toList.length = p.started.length) :
    (Process.step c impl p e).started.length
        = (if (Process.step c impl p e).once then 1 else 0) ∧
      (Process.step c impl p e).closed.length
        + (Process.step c impl p e).sweeper.toList.length
        = (Process.step c impl p e).started.length := by
  obtain ⟨h1, h2⟩ := h
  cases e with
  | newManager =>
    unfold Process.step Process.NewManager
    cases TokenHandler.NewManager c impl with
    | error err => exact ⟨h1, h2⟩
    | ok m => exact ⟨h1, h2⟩
  | onceDo done =>
    unfold Process.step Process.onceDo
    by_cases hw : done ∈ p.waiting
    · cases ho : p.once with
      | true =>
        simp only [hw, ho, if_true]
        rw [ho] at h1
        exact ⟨h1, h2⟩
      | false =>
        rw [ho] at h1
        simp only [Bool.false_eq_true, if_false] at h1
        rw [h1] at h2
        have hc : p.closed.length = 0 := by omega
        simp [hw, ho, h1, hc]
    · simp only [hw, if_false]
      exact ⟨h1, h2⟩
  | cancel => exact ⟨h1, h2⟩
  | sweepReturns =>
    unfold Process.step Process.sweepReturns
    cases hcn : p.cancelled with
    | false => exact ⟨h1, h2⟩
    | true =>
      simp only [if_true]
      cases hs : p.sweeper with
      | none =>
        simp only [hs]
        rw [hs] at h2
        exact ⟨h1, h2⟩
      | some done =>
        rw [hs] at h2
        simp only [Option.toList, List.length_cons, List.length_nil] at h2
        simp only [List.length_append, List.length_cons, List.length_nil, Option.toList]
        exact ⟨h1, by omega⟩

theorem Process_foldl_once {σ : Type} (c : Configuration) (impl : Option (SessionImpl σ))
    (events : List ProcessEvent) (p : Process)
    (h : p.started.length = (if p.once then 1 else 0) ∧
      p.closed.length + p.sweeper.toList.length = p.started.length) :
    (events.foldl (Process.step c impl) p).started.length ≤ 1 ∧
    (events.foldl (Process.step c impl) p).closed.length ≤ 1 := by
  induction events generalizing p with
  | nil =>
    obtain ⟨h1, h2⟩ := h
    simp only [List.foldl_nil]
    have : p.started.length ≤ 1 := by
      rw [h1]; split <;> omega
    exact ⟨this, by omega⟩
  | cons e es ih =>
    simp only [List.foldl_cons]
    exact ih _ (Process_step_once c impl p e h)

/-- C26 (code defect): whatever the configuration, the store and the schedule
of `NewManager` calls, goroutine runs, cancellation and sweep-task return, at
most one sweep task is started in the process and at most one `done` channel
is ever closed, so `WaitSessionCleaner` never returns on two different
managers; after two calls of `NewManager`, cancellation and the return of the
sweep task, it returns on the manager whose goroutine won `once` and blocks on
the other one, which has no sweep task: the second manager when the first
goroutine runs first, the first manager when the second one does. -/
theorem WaitSessionCleaner_blocks_on_all_but_one_manager :
    (∀ (σ : Type) (c : Configuration) (impl : Option (SessionImpl σ))
        (events : List ProcessEvent),
      (Process.run c impl events).started.length ≤ 1 ∧
      (Process.run c impl events).closed.length ≤ 1 ∧
      ∀ d k, ((Process.run c impl events).WaitSessionCleaner d &&
        (Process.run c impl events).WaitSessionCleaner (d + 1 + k)) = false) ∧
    ((Process.run mainConfiguration (some Backend.impl) firstWinsSchedule).made = 2 ∧
      (Process.run mainConfiguration (some Backend.impl) firstWinsSchedule).started = [0] ∧
      (Process.run mainConfiguration (some Backend.impl) firstWinsSchedule).cancelled = true ∧
      (Process.run mainConfiguration (some Backend.impl) firstWinsSchedule).sweeper = none ∧
      (Process.run mainConfiguration (some Backend.impl)
        firstWinsSchedule).WaitSessionCleaner 0 = true ∧
      (Process.run mainConfiguration (some Backend.impl)
        firstWinsSchedule).WaitSessionCleaner 1 = false) ∧
    ((Process.run mainConfiguration (some Backend.impl) secondWinsSchedule).made = 2 ∧
      (Process.run mainConfiguration (some Backend.impl) secondWinsSchedule).started = [1] ∧
      (Process.run mainConfiguration (some Backend.impl) secondWinsSchedule).cancelled = true ∧
      (Process.run mainConfiguration (some Backend.impl) secondWinsSchedule).sweeper = none ∧
      (Process.run mainConfiguration (some Backend.impl)
        secondWinsSchedule).WaitSessionCleaner 1 = true ∧
      (Process.run mainConfiguration (some Backend.impl)
        secondWinsSchedule).WaitSessionCleaner 0 = false) := by
  refine ⟨?_, by decide, by decide⟩
  intro σ c impl events
  have h := Process_foldl_once c impl events Process.init ⟨rfl, rfl⟩
  refine ⟨h.1, h.2, ?_⟩
  intro d k
  have hc := h.2
  unfold Process.WaitSessionCleaner
  unfold Process.run at hc ⊢
  cases hcl : (List.foldl (Process.step c impl) Process.init events).closed with
  | nil => simp
  | cons x xs =>
    rw [hcl] at hc
    cases xs with
    | nil =>
      simp only [List.mem_singleton, Bool.and_eq_false_imp, decide_eq_true_eq,
        decide_eq_false_iff_not]
      omega
    | cons y ys =>
      simp only [List.length_cons] at hc
      omega

/-- C29 (code defect): after a first call whose one-time initialization failed
(and returned that error), every later call of `NewSQLiteSessionImpl` or
`NewPostgresqlSessionImpl` returns the nil instance together with a nil
error, whatever its arguments and the state of the database. -/
theorem constructor_after_failed_init_returns_nil_store :
    (NewSQLiteSessionImpl Singleton.init none
      (some (.foreign "unable to open database file")) none []).2.1
      = some (.foreign "unable to open database file") ∧
    (∀ cipher connect create table,
      (NewSQLiteSessionImpl afterFailedOpen cipher connect create table).1 = none ∧
      (NewSQLiteSessionImpl afterFailedOpen cipher connect create table).2.1 = none) ∧
    (NewPostgresqlSessionImpl Singleton.init none
      (some (.foreign "connection refused")) none []).2.1
      = some (.foreign "connection refused") ∧
    (∀ cipher connect create table,
      (NewPostgresqlSessionImpl afterFailedConnect cipher connect create table).1 = none ∧
      (NewPostgresqlSessionImpl afterFailedConnect cipher connect create table).2.1 = none) := by
  refine ⟨rfl, ?_, rfl, ?_⟩
  · intro cipher connect create table
    exact ⟨rfl, rfl⟩
  · intro cipher connect create table
    exact ⟨rfl, rfl⟩

/-- C30 (code defect): a configuration with a 32-byte authentication secret and
a 24-byte encryption secret is accepted by `configValidate`, and the key pairs
that `main` builds from it are rejected by `keyPairsAsSlice` with an error
wrapping `ErrWrongEncSecretSize`, so `NewManager` fails. -/
theorem configValidate_accepts_what_keyPairsAsSlice_rejects :
    (configOf (keyOf 32 1) (keyOf 24 3) [] []).configValidate = none ∧
    (configOf (keyOf 32 1) (keyOf 24 3) [] []).sessionsConfiguration.keyPairsAsSlice
      = .error (.wrap .ErrWrongEncSecretSize
          "the session encryption key should have a size of 16, 24 or 32 bytes: current encryption key") ∧
    (TokenHandler.NewManager (configOf (keyOf 32 1) (keyOf 24 3) [] []).sessionsConfiguration
      (some Backend.impl)).toBool = false ∧
    (configOf (keyOf 32 1) [] (keyOf 32 2) (keyOf 24 3)).configValidate = none ∧
    (configOf (keyOf 32 1) [] (keyOf 32 2)
      (keyOf 24 3)).sessionsConfiguration.keyPairsAsSlice.toBool = false := by
  refine ⟨by decide, by decide, rfl, by decide, by decide⟩

end TokenHandler
